import Mathlib

/-!
Verification development for the QR-code scanner core
(`src/qr_scanner_util.py` of the qr-code-scanner repository).

The per-image pipeline (`_analyze_qr_code` with its nested `_run_detection`
closure) and the document scanner (`scan_pdf_file`, `scan_pdf_base64`,
`scan_image_file`, `scan_image_base64`) are shallowly embedded below.
External decoding engines (OpenCV `detectAndDecodeMulti` /
`detectAndDecode`, pyzbar, QReader) and page rasterisation (pdf2image)
are modelled as oracles packaged in `DecodeEnv` / `PageSpec`: the embedded
code is exactly the orchestration, validation, deduplication, retry-budget
and aggregation logic of the Python source, which is what the claims are
about.  Engine invocations and payload acceptances are additionally logged
in an event trace so that ordering/gating claims can be stated.

Modelling conventions:
  - a Python call that may throw and whose failure is handled is modelled
    with `Option`/a failure constructor (e.g. `RenderOutcome.raised`);
  - Python dict results with optional keys are structures whose optional
    fields have type `Option _` (a `none` field models an absent key);
  - Python `str.strip` / `str.lstrip` / `str.isdigit` / `str.isalpha` are
    modelled over their ASCII behaviour (`isPySpace`, `Char.isDigit`,
    `Char.isAlpha`), which is faithful on the byte-string payloads the
    scanner manipulates.
-/

namespace QrScan

/-- Characters treated as whitespace by Python `str.strip()` and
`str.isspace()` in the ASCII range. -/
def isPySpace (c : Char) : Bool :=
  c = ' ' || c = '\t' || c = '\n' || c = '\r' || c = '\x0b' || c = '\x0c'

/-- Python `s.lstrip()`. -/
def pyLStrip (s : String) : String :=
  String.mk (s.toList.dropWhile isPySpace)

/-- Strip characters satisfying `p` from both ends of a string. -/
def stripWith (p : Char → Bool) (s : String) : String :=
  String.mk (((s.toList.dropWhile p).reverse.dropWhile p).reverse)

/-- Python `s.strip()` (no argument: whitespace). -/
def pyStrip (s : String) : String := stripWith isPySpace s

/-- The character set of the source's `strip("()' \"")`: parentheses,
single quote, space, double quote. -/
def quoteSet : List Char := ['(', ')', '\'', ' ', '"']

/-- Python `s.strip("()' \"")`. -/
def stripQuotes (s : String) : String :=
  stripWith (fun c => quoteSet.contains c) s

/-- Whether the character list `p` is an initial segment of `l`. -/
def listPrefixOf : List Char → List Char → Bool
  | [], _ => true
  | _ :: _, [] => false
  | a :: as, b :: bs => a == b && listPrefixOf as bs

/-- Python `s.startswith(p)`. -/
def startsWithStr (s p : String) : Bool := listPrefixOf p.toList s.toList

/-- One character of the source's coordinate-blob test:
`c.isdigit() or c.isspace() or c in '.,[]()-'`. -/
def isCoordChar (c : Char) : Bool :=
  c.isDigit || isPySpace c || ['.', ',', '[', ']', '(', ')', '-'].contains c

/-- Python `s.startswith(('http://', 'https://', 'ftp://'))`. -/
def hasUriScheme (s : String) : Bool :=
  startsWithStr s "http://" || startsWithStr s "https://" || startsWithStr s "ftp://"

/-- The coordinate/geometry-dump shape named by the specification:
after trimming, the payload starts with `[` or consists entirely of
digits, whitespace and the characters `.,[]()-`.  This coincides with the
rejection test `_run_detection` applies to `qr_str_lstripped`. -/
def claimCoordLike (s : String) : Bool :=
  let t := pyLStrip s
  startsWithStr t "[" || t.toList.all isCoordChar

/-- The image buffers the pipeline feeds to the primary engine:
the CLAHE-enhanced grayscale, the bicubic upscale, and the adaptive
threshold. -/
inductive VariantTag where
  | enhanced
  | upscaled
  | thresh
deriving DecidableEq, Repr

/-- One entry of `decoded_info` from `detectAndDecodeMulti`: either a
text-like payload (a `str`, or `bytes` already decoded with
`errors="ignore"`), or a non-text entry (`None` or another type), which
the source skips. -/
inductive RawPayload where
  | txt (s : String)
  | nonText
deriving DecidableEq, Repr

/-- One symbol returned by `pyzbar.decode`: its `type` string and the
result of `d.data.decode("utf-8")` (strict); `none` models a
`UnicodeDecodeError`, which aborts the whole pyzbar block. -/
structure ZbarSym where
  typ : String
  data : Option String
deriving DecidableEq, Repr

/-- Oracles for everything outside the orchestration logic of
`_analyze_qr_code`.  `primaryMulti v a` is the payload list surfaced by
`detectAndDecodeMulti` on variant `v` rotated by `a` degrees (an empty
list also covers a `None` result or a thrown-and-caught exception).
`singleDecode` is the payload of the single-symbol `detectAndDecode`
fallback (`none` covers an empty string result or a caught exception).
`processingError` models an exception escaping the preprocessing steps
(e.g. `cvtColor`, CLAHE, resize, `adaptiveThreshold`), which the
surrounding `try` turns into a failure result carrying `str(e)`. -/
structure DecodeEnv where
  primaryMulti : VariantTag → Nat → List RawPayload
  singleDecode : Option String
  pyzbarAvailable : Bool
  pyzbarDecode : VariantTag → List ZbarSym
  qreaderAvailable : Bool
  qreaderDecode : List (Option String)
  processingError : Option String

/-- Pixel dimensions of the input image. -/
structure Image where
  height : Nat
  width : Nat
deriving DecidableEq, Repr

/-- `max(image.shape[:2])`. -/
def Image.maxDim (i : Image) : Nat := max i.height i.width

/-- An invocation of one of the decoding engines. -/
inductive EngineCall where
  | primary (v : VariantTag) (angle : Nat)
  | single
  | pyzbar (v : VariantTag)
  | qreader
deriving DecidableEq, Repr

/-- Trace events of one `_analyze_qr_code` run: engine invocations and
payload acceptances (appends to `qr_codes`). -/
inductive Event where
  | call (c : EngineCall)
  | accept (s : String)
deriving DecidableEq, Repr

def Event.isAcceptEv : Event → Bool
  | .accept _ => true
  | .call _ => false

def Event.isCallEv : Event → Bool
  | .accept _ => false
  | .call _ => true

/-- The mutable state of the sweep: the shared `qr_codes` accumulator
(which also determines the `seen_qr` set: during the `_run_detection`
phases the two always hold the same strings) together with the event
trace. -/
abbrev DetState := List String × List Event

/-- The body of the `for qr_data in decoded_list` loop of
`_run_detection`: type check, strip, emptiness check, coordinate-blob
rejection, letter/URI-scheme acceptance test, and dedup against the
already-accepted payloads. -/
def processPayload (st : DetState) (p : RawPayload) : DetState :=
  match p with
  | .nonText => st
  | .txt s0 =>
    let s1 := stripQuotes (pyStrip s0)
    if s1 = "" then st
    else
      let sl := pyLStrip s1
      if startsWithStr sl "[" then st
      else if sl.toList.all isCoordChar then st
      else if s1.toList.any Char.isAlpha || hasUriScheme s1 then
        if s1 ∈ st.1 then st
        else (st.1 ++ [s1], st.2 ++ [Event.accept s1])
      else st

/-- The rotation angles of the size-conscious path. -/
def angles : List Nat := [0, 90, 180, 270]

/-- One iteration of the `for angle in angles` loop: invoke the primary
multi-symbol engine on the rotated variant and validate its payloads.
A caught per-angle exception is the oracle returning `[]`. -/
def detAngle (env : DecodeEnv) (v : VariantTag) (st : DetState) (a : Nat) : DetState :=
  (env.primaryMulti v a).foldl processPayload (st.1, st.2 ++ [Event.call (EngineCall.primary v a)])

/-- `_run_detection(variant)`: the full rotation sweep.  Note there is no
early exit from the angle loop. -/
def run_detection (env : DecodeEnv) (v : VariantTag) (st : DetState) : DetState :=
  angles.foldl (detAngle env v) st

/-- The single-symbol `detectAndDecode` fallback: strip the payload and
append it if non-empty.  No coordinate filter and no dedup are applied
here (dedup is irrelevant: this block only runs on an empty
accumulator). -/
def singlePass (env : DecodeEnv) (st : DetState) : DetState :=
  let st1 : DetState := (st.1, st.2 ++ [Event.call EngineCall.single])
  match env.singleDecode with
  | none => st1
  | some q =>
    let s := stripQuotes (pyStrip q)
    if s = "" then st1 else (st1.1 ++ [s], st1.2 ++ [Event.accept s])

/-- The `for d in decoded` loop over pyzbar symbols for one candidate:
keep only `QRCODE` symbols, strictly utf-8 decode and strip the data,
append when non-empty.  A `UnicodeDecodeError` (`data = none`) propagates
out of the candidate loop: the second component flags the abort, and
payloads appended before it are kept. -/
def zbarFold : DetState → List ZbarSym → DetState × Bool
  | st, [] => (st, false)
  | st, d :: ds =>
    if d.typ ≠ "QRCODE" then zbarFold st ds
    else
      match d.data with
      | none => (st, true)
      | some s =>
        let t := pyStrip s
        if t = "" then zbarFold st ds
        else zbarFold (st.1 ++ [t], st.2 ++ [Event.accept t]) ds

/-- The pyzbar fallback block: try the enhanced candidate, then, only if
`qr_codes` is still empty and no decode error aborted the block, the
thresholded candidate (`if qr_codes: break`).  An unavailable pyzbar
(ImportError) skips the block. -/
def pyzbarPass (env : DecodeEnv) (st : DetState) : DetState :=
  if env.pyzbarAvailable then
    let stE : DetState := (st.1, st.2 ++ [Event.call (EngineCall.pyzbar VariantTag.enhanced)])
    let r1 := zbarFold stE (env.pyzbarDecode VariantTag.enhanced)
    if r1.2 then r1.1
    else if r1.1.1 ≠ [] then r1.1
    else
      let stT : DetState := (r1.1.1, r1.1.2 ++ [Event.call (EngineCall.pyzbar VariantTag.thresh)])
      (zbarFold stT (env.pyzbarDecode VariantTag.thresh)).1
  else st

/-- The QReader fallback block: if importable, run the model-based engine
on the colour-restored image and append every truthy decoded text,
stripped.  No size condition guards this block in the source. -/
def qreaderPass (env : DecodeEnv) (st : DetState) : DetState :=
  if env.qreaderAvailable then
    let st1 : DetState := (st.1, st.2 ++ [Event.call EngineCall.qreader])
    env.qreaderDecode.foldl
      (fun st t =>
        match t with
        | some s => if s ≠ "" then (st.1 ++ [pyStrip s], st.2 ++ [Event.accept (pyStrip s)]) else st
        | none => st) st1
  else st

/-- Pass 1 of `_analyze_qr_code`: the rotation sweep over the enhanced
variant, starting from an empty `qr_codes`. -/
def pass1 (env : DecodeEnv) : DetState :=
  run_detection env VariantTag.enhanced ([], [])

/-- The buffer swept by the first half of pass 2: when the enhanced
image's longer side is below 1800 a bicubic upscale is produced,
otherwise `upscaled = enhanced` (the very same buffer), which the oracle
keying reflects. -/
def upVariant (img : Image) : VariantTag :=
  if img.maxDim < 1800 then VariantTag.upscaled else VariantTag.enhanced

/-- Pass 2 (escalation): only if pass 1 accepted nothing, sweep the
upscaled buffer, then — only if still nothing — the adaptive-threshold
buffer. -/
def pass2 (env : DecodeEnv) (img : Image) : DetState :=
  if (pass1 env).1.isEmpty then
    if (run_detection env (upVariant img) (pass1 env)).1.isEmpty then
      run_detection env VariantTag.thresh (run_detection env (upVariant img) (pass1 env))
    else run_detection env (upVariant img) (pass1 env)
  else pass1 env

/-- Pass 3: the single-symbol fallback, only on an empty accumulator. -/
def pass3 (env : DecodeEnv) (img : Image) : DetState :=
  if (pass2 env img).1.isEmpty then singlePass env (pass2 env img) else pass2 env img

/-- Passes 1 to the pyzbar fallback of `_analyze_qr_code` (everything
before the QReader block). -/
def prePipeline (env : DecodeEnv) (img : Image) : DetState :=
  if (pass3 env img).1.isEmpty then pyzbarPass env (pass3 env img) else pass3 env img

/-- The full detection sweep of `_analyze_qr_code`, QReader fallback
included. -/
def runPipeline (env : DecodeEnv) (img : Image) : DetState :=
  if (prePipeline env img).1.isEmpty then qreaderPass env (prePipeline env img)
  else prePipeline env img

/-- One record of the `qr_codes` result list. -/
structure QrRecord where
  qr_index : Nat
  content : String
  scannable : Bool
  valid : Bool
  length : Nat
deriving DecidableEq, Repr

/-- The per-image result dictionary.  `none` in an `Option` field models
an absent key of the Python dict (e.g. `qr_count` is only present in the
found case). -/
structure ScanResult where
  success : Bool
  qr_found : Bool
  scannable : Bool
  qr_count : Option Nat
  qr_codes : Option (List QrRecord)
  message : Option String
  error : Option String
  page_number : Option Nat
deriving DecidableEq, Repr

/-- `for i, code in enumerate(qr_codes)`: build the record list. -/
def mkRecords : Nat → List String → List QrRecord
  | _, [] => []
  | i, c :: cs =>
    { qr_index := i, content := c, scannable := true, valid := true, length := c.length }
      :: mkRecords (i + 1) cs

/-- The found-case result of `_analyze_qr_code`. -/
def foundResult (codes : List String) : ScanResult :=
  { success := true, qr_found := true, scannable := true
    qr_count := some codes.length
    qr_codes := some (mkRecords 0 codes)
    message := some ("Successfully detected and scanned " ++ toString codes.length ++ " QR code(s)")
    error := none, page_number := none }

/-- The no-detection result of `_analyze_qr_code` (note: `success` is
true; `qr_count` and `qr_codes` keys are absent). -/
def notFoundResult : ScanResult :=
  { success := true, qr_found := false, scannable := false
    qr_count := none, qr_codes := none
    message := some "No QR code detected in the image"
    error := none, page_number := none }

/-- The `success=False` failure dictionary shared by the exception
handlers of `_analyze_qr_code`, `scan_image_file` and
`scan_image_base64`. -/
def analysisFailure (msg : String) : ScanResult :=
  { success := false, qr_found := false, scannable := false
    qr_count := none, qr_codes := none, message := none
    error := some msg, page_number := none }

/-- `_analyze_qr_code`, with its event trace.  A preprocessing exception
(`processingError`) reaches the surrounding handler and produces the
failure result. -/
def analyzeTraced (env : DecodeEnv) (img : Image) : ScanResult × List Event :=
  match env.processingError with
  | some msg => (analysisFailure msg, [])
  | none =>
    let st := runPipeline env img
    (if st.1.isEmpty then notFoundResult else foundResult st.1, st.2)

/-- `_analyze_qr_code`: the returned dictionary. -/
def analyze_qr_code (env : DecodeEnv) (img : Image) : ScanResult :=
  (analyzeTraced env img).1

/-- `scan_image_file`: `cv2.imread` returning `None` (or the load step
throwing) is the `Except.error` case, carrying the error string; a
loaded image is analysed. -/
def scan_image_file (load : Except String (DecodeEnv × Image)) : ScanResult :=
  match load with
  | .error msg => analysisFailure msg
  | .ok (env, img) => analyze_qr_code env img

/-- `scan_image_base64`: a failed base64 decode or `cv2.imdecode`
returning `None` is the `Except.error` case. -/
def scan_image_base64 (load : Except String (DecodeEnv × Image)) : ScanResult :=
  match load with
  | .error msg => analysisFailure msg
  | .ok (env, img) => analyze_qr_code env img

/-! ### The document scanner -/

/-- The outcome of rendering one page with `convert_from_path` at one
resolution: a rendered page (whose analysis is driven by `DecodeEnv` and
`Image`), an empty image list, or a raised exception carrying
`str(e)`. -/
inductive RenderOutcome where
  | page (env : DecodeEnv) (img : Image)
  | empty
  | raised (msg : String)

def RenderOutcome.isRaised : RenderOutcome → Bool
  | .raised _ => true
  | _ => false

def RenderOutcome.isEmptyRender : RenderOutcome → Bool
  | .empty => true
  | _ => false

/-- One page of the document: its render outcome at the base DPI and at
the retry DPI. -/
structure PageSpec where
  base : RenderOutcome
  retry : RenderOutcome

/-- The environment-style configuration of `scan_pdf_file`:
`PDF_DPI`, `PDF_RETRY_DPI`, `PDF_MAX_RETRY_PAGES`. -/
structure PdfCfg where
  baseDpi : Nat
  retryDpi : Nat
  maxRetryPages : Nat
deriving DecidableEq, Repr

/-- A document source: either it cannot be opened / its info cannot be
read (`pdfinfo_from_path` raises), or it opens with a page list. -/
inductive PdfDoc where
  | unopenable (msg : String)
  | opened (pages : List PageSpec)

/-- Instrumentation of the per-page retry logic: the shared budget on
entry to the page, whether a re-render at the retry DPI was triggered
(`convert_from_path` called at `retry_dpi`), whether the retry render
produced an image that was then re-analysed, and the budget after the
page. -/
structure PageLog where
  page : Nat
  budgetBefore : Nat
  retryRendered : Bool
  retryScanned : Bool
  budgetAfter : Nat
deriving DecidableEq, Repr

/-- The state accumulated by the page loop of `scan_pdf_file`:
per-page results, the retry instrumentation, the `total_qr_found` and
`total_scannable` counters, and the error of an aborting exception (a
base-dpi render raising propagates to the outer handler). -/
structure PagesOut where
  results : List ScanResult
  logs : List PageLog
  qrPages : Nat
  scPages : Nat
  err : Option String

/-- The result recorded for a page whose base render returns no
image (`if not images: ... continue`). -/
def renderFailResult (n : Nat) : ScanResult :=
  { success := true, qr_found := false, scannable := false
    qr_count := none, qr_codes := none
    message := some "Failed to render PDF page"
    error := none, page_number := some n }

/-- The retry step for one rendered-and-analysed page: if no QR was
found, the retry DPI exceeds the base DPI and the shared budget is
positive, re-render the page at the retry DPI.  A raised retry render is
caught and an empty retry render skips the block (`if images_retry:`);
in both cases the budget is not decremented.  When the retry render
yields an image the budget is decremented, the page is re-analysed, and
the retry result replaces the base result only if it found a QR.
Returns (result, new budget, retryRendered, retryScanned). -/
def scanPage (cfg : PdfCfg) (budget : Nat) (p : PageSpec) (env : DecodeEnv) (img : Image) :
    ScanResult × Nat × Bool × Bool :=
  let r0 := analyze_qr_code env img
  if !r0.qr_found && decide (cfg.baseDpi < cfg.retryDpi) && decide (0 < budget) then
    match p.retry with
    | .raised _ => (r0, budget, true, false)
    | .empty => (r0, budget, true, false)
    | .page env2 img2 =>
      let rr := analyze_qr_code env2 img2
      ((if rr.qr_found then rr else r0), budget - 1, true, true)
  else (r0, budget, false, false)

/-- The `for page_num in range(1, total_pages + 1)` loop, with the page
number and the shared retry budget threaded through.  A base render that
raises aborts the loop (and the whole scan); an empty base render
records `renderFailResult` and continues (`continue` also skips the
retry block and the counter updates, whose conditions are false there
anyway). -/
def scanPagesGo (cfg : PdfCfg) : List PageSpec → Nat → Nat → PagesOut
  | [], _, _ => { results := [], logs := [], qrPages := 0, scPages := 0, err := none }
  | p :: ps, budget, n =>
    match p.base with
    | .raised msg =>
      { results := []
        logs := [{ page := n, budgetBefore := budget, retryRendered := false
                   retryScanned := false, budgetAfter := budget }]
        qrPages := 0, scPages := 0, err := some msg }
    | .empty =>
      let rest := scanPagesGo cfg ps budget (n + 1)
      { results := renderFailResult n :: rest.results
        logs := { page := n, budgetBefore := budget, retryRendered := false
                  retryScanned := false, budgetAfter := budget } :: rest.logs
        qrPages := rest.qrPages, scPages := rest.scPages, err := rest.err }
    | .page env img =>
      let step := scanPage cfg budget p env img
      let r2 := { step.1 with page_number := some n }
      let rest := scanPagesGo cfg ps step.2.1 (n + 1)
      { results := r2 :: rest.results
        logs := { page := n, budgetBefore := budget, retryRendered := step.2.2.1
                  retryScanned := step.2.2.2, budgetAfter := step.2.1 } :: rest.logs
        qrPages := (if r2.qr_found then 1 else 0) + rest.qrPages
        scPages := (if r2.scannable then 1 else 0) + rest.scPages
        err := rest.err }

/-- The document-level result dictionary. -/
structure DocResult where
  success : Bool
  error : Option String
  qr_found : Option Bool
  total_pages : Option Nat
  pages_with_qr : Option Nat
  pages_scannable : Option Nat
  qr_count : Option Nat
  pages : Option (List ScanResult)
  message : Option String
deriving DecidableEq, Repr

/-- The failure dictionary of `scan_pdf_file` / `scan_pdf_base64`:
`{"success": False, "error": ..., "qr_found": False}`. -/
def pdfErrorResult (msg : String) : DocResult :=
  { success := false, error := some msg, qr_found := some false
    total_pages := none, pages_with_qr := none, pages_scannable := none
    qr_count := none, pages := none, message := none }

/-- `scan_pdf_file`.  `avail = false` models `pdf2image` being
uninstalled (the ImportError handler).  A zero page count raises
`ValueError("Could not determine PDF page count")`, caught by the outer
handler.  The aggregation sums `r.get("qr_count", 0)` over the page
results. -/
def scan_pdf_file (avail : Bool) (cfg : PdfCfg) (doc : PdfDoc) : DocResult :=
  if avail then
    match doc with
    | .unopenable msg => pdfErrorResult msg
    | .opened ps =>
      if ps.length = 0 then pdfErrorResult "Could not determine PDF page count"
      else
        let o := scanPagesGo cfg ps cfg.maxRetryPages 1
        match o.err with
        | some msg => pdfErrorResult msg
        | none =>
          { success := true, error := none, qr_found := none
            total_pages := some ps.length
            pages_with_qr := some o.qrPages
            pages_scannable := some o.scPages
            qr_count := some ((o.results.map (fun r => r.qr_count.getD 0)).sum)
            pages := some o.results
            message := some ("Scanned " ++ toString ps.length ++ " pages, found QR codes in "
              ++ toString o.qrPages ++ " pages (" ++ toString o.scPages ++ " scannable)") }
  else pdfErrorResult "pdf2image library not installed"

/-- The retry instrumentation of a `scan_pdf_file` run (empty when the
page loop is never entered). -/
def scan_pdf_log (avail : Bool) (cfg : PdfCfg) (doc : PdfDoc) : List PageLog :=
  if avail then
    match doc with
    | .unopenable _ => []
    | .opened ps =>
      if ps.length = 0 then [] else (scanPagesGo cfg ps cfg.maxRetryPages 1).logs
  else []

/-- `scan_pdf_base64`: decode the base64 payload (`deco` is the
`base64.b64decode` + temp-file step; `none` models a raised decode
error), write it to a temporary file and delegate to `scan_pdf_file` on
that file, whose contents are exactly the decoded bytes. -/
def scan_pdf_base64 (avail : Bool) (cfg : PdfCfg) (deco : String → Option PdfDoc)
    (s : String) : DocResult :=
  match deco s with
  | none => pdfErrorResult "Invalid base64-encoded data"
  | some doc => scan_pdf_file avail cfg doc

/-! ### Specification-side predicates used to state the claims -/

/-- The validated payload stream of the primary rotation sweeps before
deduplication: identical to `processPayload` except that the final
membership test against the already-accepted payloads is dropped.  Used
to state the first-occurrence-wins/order-preservation part of the
deduplication claim. -/
def processPayloadC (acc : List String) (p : RawPayload) : List String :=
  match p with
  | .nonText => acc
  | .txt s0 =>
    let s1 := stripQuotes (pyStrip s0)
    if s1 = "" then acc
    else
      let sl := pyLStrip s1
      if startsWithStr sl "[" then acc
      else if sl.toList.all isCoordChar then acc
      else if s1.toList.any Char.isAlpha || hasUriScheme s1 then acc ++ [s1]
      else acc

/-- Pre-dedup counterpart of `detAngle`. -/
def candAngle (env : DecodeEnv) (v : VariantTag) (acc : List String) (a : Nat) : List String :=
  (env.primaryMulti v a).foldl processPayloadC acc

/-- Pre-dedup counterpart of `run_detection`. -/
def candDetection (env : DecodeEnv) (v : VariantTag) (acc : List String) : List String :=
  angles.foldl (candAngle env v) acc

/-- Pre-dedup counterpart of `singlePass`. -/
def candSingle (env : DecodeEnv) (acc : List String) : List String :=
  match env.singleDecode with
  | none => acc
  | some q =>
    let s := stripQuotes (pyStrip q)
    if s = "" then acc else acc ++ [s]

/-- The pre-dedup validated payload stream after passes 1 and 2, with
the same escalation guards as the real pipeline. -/
def candPipelineStage2 (env : DecodeEnv) (img : Image) : List String :=
  if (candDetection env VariantTag.enhanced []).isEmpty then
    if (candDetection env (upVariant img) (candDetection env VariantTag.enhanced [])).isEmpty then
      candDetection env VariantTag.thresh
        (candDetection env (upVariant img) (candDetection env VariantTag.enhanced []))
    else candDetection env (upVariant img) (candDetection env VariantTag.enhanced [])
  else candDetection env VariantTag.enhanced []

/-- The pre-dedup validated payload stream of passes 1-3 (primary sweeps
and the single-symbol fallback). -/
def candPipeline (env : DecodeEnv) (img : Image) : List String :=
  if (candPipelineStage2 env img).isEmpty then candSingle env (candPipelineStage2 env img)
  else candPipelineStage2 env img

/-- Keep the first occurrence of every string, preserving order: the
effect of the `seen_qr` set of the source. -/
def dedupFirst (l : List String) : List String :=
  l.foldl (fun acc s => if s ∈ acc then acc else acc ++ [s]) []

/-- No event of the trace is a payload acceptance. -/
def noAcc (t : List Event) : Bool := t.all fun e => !e.isAcceptEv

/-- The variant of the most recent primary-engine invocation in a
trace: the rotation sweep in progress. -/
def curVariant (t : List Event) : Option VariantTag :=
  (t.filterMap fun e =>
    match e with
    | Event.call (EngineCall.primary v _) => some v
    | _ => none).getLast?

/-- The events of a trace that follow the first acceptance. -/
def afterFirstAccept (t : List Event) : List Event :=
  (t.dropWhile fun e => !e.isAcceptEv).drop 1

/-- The events of a trace before the first acceptance. -/
def beforeFirstAccept (t : List Event) : List Event :=
  t.takeWhile fun e => !e.isAcceptEv

/-- The literal reading of the early-exit claim: no engine invocation at
all after the first acceptance. -/
def noCallAfterAccept (t : List Event) : Bool :=
  (afterFirstAccept t).all fun e => !e.isCallEv

/-- What actually holds after the first acceptance: an event is either a
further acceptance, or a primary-engine invocation on the variant whose
rotation sweep was already in progress (`w` is that variant). -/
def afterOkEv (w : Option VariantTag) (e : Event) : Bool :=
  match e with
  | .accept _ => true
  | .call (EngineCall.primary v _) =>
    match w with
    | some u => decide (v = u)
    | none => false
  | .call _ => false

/-- The amended early-exit property of a trace: every event after the
first acceptance is an acceptance or a primary-engine call on the
variant of the sweep in progress at the first acceptance. -/
def c7ok (t : List Event) : Bool :=
  (afterFirstAccept t).all (afterOkEv (curVariant (beforeFirstAccept t)))

/-- Shape of a trace whose first acceptance happened inside the rotation
sweep of variant `v`: an acceptance-free prefix whose sweep in progress
is `v`, followed by the first acceptance, followed only by acceptances
and further primary calls on `v`. -/
def sweepAcceptShape (v : VariantTag) (t : List Event) : Prop :=
  ∃ pre s post, t = pre ++ Event.accept s :: post
    ∧ noAcc pre = true ∧ curVariant pre = some v
    ∧ post.all (afterOkEv (some v)) = true

/-- Invariant carried through a rotation sweep of variant `v`: either
nothing has been accepted yet (empty accumulator, acceptance-free
trace), or the trace has the sweep-acceptance shape. -/
def sweepInv (v : VariantTag) (st : DetState) : Prop :=
  (st.1 = [] ∧ noAcc st.2 = true) ∨ (st.1 ≠ [] ∧ sweepAcceptShape v st.2)

/-- Strengthened sweep invariant holding after the sweep's engine call
has been logged: in the acceptance-free case the sweep in progress is
already `v`. -/
def sweepInvS (v : VariantTag) (st : DetState) : Prop :=
  (st.1 = [] ∧ noAcc st.2 = true ∧ curVariant st.2 = some v)
    ∨ (st.1 ≠ [] ∧ sweepAcceptShape v st.2)

/-- Shape of a trace whose first acceptance happened inside a fallback
block: an acceptance-free prefix, the first acceptance, then only
further acceptances (fallback blocks log their engine call before any
acceptance and are followed by no further invocation). -/
def tailAcceptShape (t : List Event) : Prop :=
  ∃ pre s post, t = pre ++ Event.accept s :: post
    ∧ noAcc pre = true ∧ post.all Event.isAcceptEv = true

/-- When `scan_image_file` / `scan_image_base64` produce a
`success=False` result: the input failed to load, or an exception
escaped the preprocessing steps of the analysis. -/
def imageScanFatal (load : Except String (DecodeEnv × Image)) : Bool :=
  match load with
  | .error _ => true
  | .ok (env, _) => env.processingError.isSome

/-- When `scan_pdf_file` produces a `success=False` result: pdf2image
missing, the document unopenable, a zero page count, or a page-loop
exception (a base-DPI render raising). -/
def pdfScanFatal (avail : Bool) (cfg : PdfCfg) (doc : PdfDoc) : Bool :=
  !avail ||
    match doc with
    | .unopenable _ => true
    | .opened ps =>
      decide (ps.length = 0) || (scanPagesGo cfg ps cfg.maxRetryPages 1).err.isSome

/-- When `scan_pdf_base64` produces a `success=False` result: the base64
payload fails to decode, or the delegated file scan is fatal. -/
def pdfB64Fatal (avail : Bool) (cfg : PdfCfg) (deco : String → Option PdfDoc)
    (s : String) : Bool :=
  match deco s with
  | none => true
  | some doc => pdfScanFatal avail cfg doc

/-- Page results carry consecutive 1-based page numbers starting at
`n`. -/
def numberedFrom : Nat → List ScanResult → Bool
  | _, [] => true
  | n, r :: rs => decide (r.page_number = some n) && numberedFrom (n + 1) rs

/-- Every page whose base render produced no image is recorded as the
descriptive `renderFailResult` at its position. -/
def pagesMatch : Nat → List PageSpec → List ScanResult → Bool
  | _, [], [] => true
  | n, p :: ps, r :: rs =>
    (if p.base.isEmptyRender then decide (r = renderFailResult n) else true)
      && pagesMatch (n + 1) ps rs
  | _, _, _ => false

/-! ### Concrete fixtures for counterexamples and witnesses -/

/-- An environment in which every engine yields nothing. -/
def envNone : DecodeEnv :=
  { primaryMulti := fun _ _ => [], singleDecode := none
    pyzbarAvailable := false, pyzbarDecode := fun _ => []
    qreaderAvailable := false, qreaderDecode := []
    processingError := none }

/-- A small image (longer side below every size constant of the
pipeline). -/
def imgSmall : Image := { height := 100, width := 200 }

/-- A huge image (longer side far above every size constant of the
pipeline: 1800 and 2200). -/
def imgHuge : Image := { height := 100000, width := 100000 }

/-- The primary engine decodes the payload "hello" from the enhanced
variant at rotation angle 0 (and nothing else anywhere). -/
def envHello : DecodeEnv :=
  { envNone with
    primaryMulti := fun v a =>
      if v = VariantTag.enhanced && a == 0 then [RawPayload.txt "hello"] else [] }

/-- The primary engine decodes "hello" at every variant and angle. -/
def envDupAngles : DecodeEnv :=
  { envNone with primaryMulti := fun _ _ => [RawPayload.txt "hello"] }

/-- Every OpenCV pass fails; pyzbar decodes one QR symbol whose payload
is the coordinate-dump string. -/
def envCoordZbar : DecodeEnv :=
  { envNone with
    pyzbarAvailable := true
    pyzbarDecode := fun v =>
      if v = VariantTag.enhanced then [{ typ := "QRCODE", data := some "[[12,34],[56,78]]" }]
      else [] }

/-- Every OpenCV pass fails; pyzbar decodes two identical QR symbols in
one decode call. -/
def envDupZbar : DecodeEnv :=
  { envNone with
    pyzbarAvailable := true
    pyzbarDecode := fun v =>
      if v = VariantTag.enhanced then
        [{ typ := "QRCODE", data := some "hello" }, { typ := "QRCODE", data := some "hello" }]
      else [] }

/-- Nothing decodes, and the QReader engine is importable. -/
def envQrAvail : DecodeEnv := { envNone with qreaderAvailable := true }

/-- An environment whose preprocessing raises (e.g. `cv2.cvtColor` or
`adaptiveThreshold` throwing on a degenerate buffer). -/
def envBoom : DecodeEnv := { envNone with processingError := some "processing failed" }

/-- A default configuration: base 150 dpi, retry 200 dpi, budget 5. -/
def cfgFix : PdfCfg := { baseDpi := 150, retryDpi := 200, maxRetryPages := 5 }

/-- A page that renders at both resolutions and has no QR code. -/
def pgNoQr : PageSpec :=
  { base := RenderOutcome.page envNone imgSmall, retry := RenderOutcome.page envNone imgSmall }

/-- A page that renders at base resolution with a decodable QR code. -/
def pgQr : PageSpec :=
  { base := RenderOutcome.page envHello imgSmall, retry := RenderOutcome.page envNone imgSmall }

/-- A page whose base render returns no image. -/
def pgEmpty : PageSpec := { base := RenderOutcome.empty, retry := RenderOutcome.empty }

/-- A page whose base render raises. -/
def pgRaise : PageSpec :=
  { base := RenderOutcome.raised "pdftoppm crashed on page", retry := RenderOutcome.empty }

/-- A fixed base64 decode oracle for the delegation witness. -/
def decoFix : String → Option PdfDoc := fun _ => some (PdfDoc.opened [pgQr, pgNoQr])

/-! ### Helper lemmas -/

/-- The three result shapes of `_analyze_qr_code` pin down `success`,
`error` and the found/count relation. -/
theorem analyze_fields (env : DecodeEnv) (img : Image) :
    (analyze_qr_code env img).success = env.processingError.isNone
    ∧ (analyze_qr_code env img).error = env.processingError
    ∧ (analyze_qr_code env img).qr_found
        = decide (0 < (analyze_qr_code env img).qr_count.getD 0) := by
  unfold analyze_qr_code analyzeTraced
  cases henv : env.processingError with
  | some m => simp [analysisFailure]
  | none =>
    by_cases h : (runPipeline env img).1.isEmpty
    · simp [h, notFoundResult]
    · simp only [h]
      cases hl : (runPipeline env img).1 with
      | nil => rw [hl] at h; simp at h
      | cons a l => simp [foundResult]

/-! ### C4 -/

/-- C4: every `ScanResult` of the per-image analysis satisfies
`qr_found == (qr_count > 0)` (the `qr_count` key is absent in the
not-found and failure dictionaries and is read as 0, exactly as the
aggregation in `scan_pdf_file` reads it via `r.get("qr_count", 0)`), and
`success` is false exactly when an exception escaped the preprocessing
steps — an image in which no QR code is found yields `success=true` with
`qr_found=false`, never `success=false`. -/
theorem C4_result_invariants (env : DecodeEnv) (img : Image) :
    (analyze_qr_code env img).qr_found
      = decide (0 < (analyze_qr_code env img).qr_count.getD 0)
    ∧ (analyze_qr_code env img).success = env.processingError.isNone := by
  obtain ⟨h1, _, h3⟩ := analyze_fields env img
  exact ⟨h3, h1⟩

/-! ### C9 -/

/-- C9 counterexample: `scan_pdf_file` on a perfectly openable one-page
document returns `success=false` with an `error` field when the
`pdf2image` dependency is missing (the ImportError handler) — an error
result that is not an input-load failure, refuting the claim that the
`error` field appears exactly when the input could not be loaded or
opened. -/
theorem C9_counterexample :
    (scan_pdf_file false cfgFix (PdfDoc.opened [pgNoQr])).success = false
    ∧ (scan_pdf_file false cfgFix (PdfDoc.opened [pgNoQr])).error
        = some "pdf2image library not installed" :=
  ⟨rfl, rfl⟩

/-- C9 amended: the public scan operations always return a structured
result (they are total functions of their oracles; every exception of
the source is caught by a blanket handler), and the result has
`success=false` together with an `error` field exactly when the scan is
fatal: the input could not be loaded or opened, the page count was
undeterminable, the `pdf2image` dependency is missing, a page-loop
exception aborted the document scan, or an exception escaped the
per-image preprocessing — never for a clean "no QR found" outcome. -/
theorem C9_amended (load loadB : Except String (DecodeEnv × Image)) (avail : Bool)
    (cfg : PdfCfg) (doc : PdfDoc) (deco : String → Option PdfDoc) (s : String) :
    ((scan_image_file load).success = !imageScanFatal load
      ∧ (scan_image_file load).error.isSome = imageScanFatal load)
    ∧ ((scan_image_base64 loadB).success = !imageScanFatal loadB
      ∧ (scan_image_base64 loadB).error.isSome = imageScanFatal loadB)
    ∧ ((scan_pdf_file avail cfg doc).success = !pdfScanFatal avail cfg doc
      ∧ (scan_pdf_file avail cfg doc).error.isSome = pdfScanFatal avail cfg doc)
    ∧ ((scan_pdf_base64 avail cfg deco s).success = !pdfB64Fatal avail cfg deco s
      ∧ (scan_pdf_base64 avail cfg deco s).error.isSome = pdfB64Fatal avail cfg deco s) := by
  have himg : ∀ l : Except String (DecodeEnv × Image),
      (scan_image_file l).success = !imageScanFatal l
      ∧ (scan_image_file l).error.isSome = imageScanFatal l := by
    intro l
    cases l with
    | error m => simp [scan_image_file, imageScanFatal, analysisFailure]
    | ok p =>
      obtain ⟨env, img⟩ := p
      obtain ⟨h1, h2, _⟩ := analyze_fields env img
      simp only [scan_image_file, imageScanFatal, h1, h2]
      cases env.processingError <;> simp
  have himgB : ∀ l : Except String (DecodeEnv × Image),
      (scan_image_base64 l).success = !imageScanFatal l
      ∧ (scan_image_base64 l).error.isSome = imageScanFatal l := by
    intro l
    cases l with
    | error m => simp [scan_image_base64, imageScanFatal, analysisFailure]
    | ok p =>
      obtain ⟨env, img⟩ := p
      obtain ⟨h1, h2, _⟩ := analyze_fields env img
      simp only [scan_image_base64, imageScanFatal, h1, h2]
      cases env.processingError <;> simp
  have hpdf : ∀ (av : Bool) (c : PdfCfg) (d : PdfDoc),
      (scan_pdf_file av c d).success = !pdfScanFatal av c d
      ∧ (scan_pdf_file av c d).error.isSome = pdfScanFatal av c d := by
    intro av c d
    cases av with
    | false => simp [scan_pdf_file, pdfScanFatal, pdfErrorResult]
    | true =>
      cases d with
      | unopenable m => simp [scan_pdf_file, pdfScanFatal, pdfErrorResult]
      | opened ps =>
        by_cases hz : ps.length = 0
        · simp [scan_pdf_file, pdfScanFatal, pdfErrorResult, hz]
        · simp only [scan_pdf_file, pdfScanFatal, hz]
          cases herr : (scanPagesGo c ps c.maxRetryPages 1).err with
          | some m => simp [pdfErrorResult, herr]
          | none => simp [herr]
  refine ⟨himg load, himgB loadB, hpdf avail cfg doc, ?_⟩
  cases hd : deco s with
  | none => simp [scan_pdf_base64, pdfB64Fatal, hd, pdfErrorResult]
  | some d => simp only [scan_pdf_base64, pdfB64Fatal, hd]; exact hpdf avail cfg d

/-! ### C10 -/

/-- C10: for every base64 string that decodes to a byte sequence, the
base64 entry point returns exactly the result of `scan_pdf_file` applied
to a file whose contents are those bytes — a pure delegation through a
temporary file (the `finally` unlink does not affect the result). -/
theorem C10_base64_delegation (avail : Bool) (cfg : PdfCfg)
    (deco : String → Option PdfDoc) (s : String) (doc : PdfDoc)
    (h : deco s = some doc) :
    scan_pdf_base64 avail cfg deco s = scan_pdf_file avail cfg doc := by
  unfold scan_pdf_base64
  rw [h]

/-- C10 witness: the delegation theorem applied to a concrete
two-page document. -/
theorem C10_witness :
    scan_pdf_base64 true cfgFix decoFix "QkFTRTY0"
      = scan_pdf_file true cfgFix (PdfDoc.opened [pgQr, pgNoQr]) :=
  C10_base64_delegation true cfgFix decoFix "QkFTRTY0" (PdfDoc.opened [pgQr, pgNoQr]) rfl

/-! ### C3 -/

/-- Budget bookkeeping of the per-page retry step: a triggered re-render
requires a positive budget; a retry that was rendered and re-scanned
decrements the budget by exactly one (whatever the scan's outcome); a
retry that was not re-scanned leaves the budget unchanged. -/
theorem scanPage_budget (cfg : PdfCfg) (b : Nat) (p : PageSpec) (env : DecodeEnv)
    (img : Image) :
    ((scanPage cfg b p env img).2.2.1 = true → 0 < b)
    ∧ ((scanPage cfg b p env img).2.2.2 = true
        → (scanPage cfg b p env img).2.1 + 1 = b)
    ∧ ((scanPage cfg b p env img).2.2.2 = false
        → (scanPage cfg b p env img).2.1 = b) := by
  by_cases hcond : (!(analyze_qr_code env img).qr_found
      && decide (cfg.baseDpi < cfg.retryDpi) && decide (0 < b)) = true
  · have hb : 0 < b := of_decide_eq_true ((Bool.and_eq_true _ _).mp hcond).2
    cases hr : p.retry with
    | raised m =>
      simp only [scanPage, hcond, if_true, hr]
      simp [hb]
    | empty =>
      simp only [scanPage, hcond, if_true, hr]
      simp [hb]
    | page env2 img2 =>
      simp only [scanPage, hcond, if_true, hr]
      simp [hb]
      omega
  · simp only [scanPage, if_neg hcond]
    simp

/-- The shared retry budget bounds the number of re-scanned pages, a
page seen with an exhausted budget never triggers a re-render, and the
budget drops by one exactly on the retried-and-rescanned pages. -/
theorem scanPagesGo_budget (cfg : PdfCfg) :
    ∀ (ps : List PageSpec) (b n : Nat),
      (scanPagesGo cfg ps b n).logs.countP (fun e => e.retryScanned) ≤ b
      ∧ ((scanPagesGo cfg ps b n).logs.all
          fun e => !e.retryRendered || decide (0 < e.budgetBefore)) = true
      ∧ ((scanPagesGo cfg ps b n).logs.all
          fun e => !e.retryScanned || decide (e.budgetAfter + 1 = e.budgetBefore)) = true := by
  intro ps
  induction ps with
  | nil => intro b n; simp [scanPagesGo]
  | cons p ps ih =>
    intro b n
    unfold scanPagesGo
    cases hbase : p.base with
    | raised m => simp [List.countP_cons]
    | empty =>
      obtain ⟨ih1, ih2, ih3⟩ := ih b (n + 1)
      simp only [List.countP_cons, List.all_cons]
      refine ⟨?_, ?_, ?_⟩
      · simpa using ih1
      · simp [ih2]
      · simp [ih3]
    | page env img =>
      obtain ⟨hp1, hp2, hp3⟩ := scanPage_budget cfg b p env img
      obtain ⟨ih1, ih2, ih3⟩ := ih (scanPage cfg b p env img).2.1 (n + 1)
      refine ⟨?_, ?_, ?_⟩
      · cases hsc : (scanPage cfg b p env img).2.2.2 with
        | false => simpa [List.countP_cons, hsc, hp3 hsc] using ih1
        | true =>
          have hdec := hp2 hsc
          have h1 := ih1
          simp only [List.countP_cons, hsc, if_true]
          omega
      · cases hr : (scanPage cfg b p env img).2.2.1 with
        | false => simp [List.all_cons, hr, ih2]
        | true => simp [List.all_cons, hr, hp1 hr, ih2]
      · cases hsc : (scanPage cfg b p env img).2.2.2 with
        | false => simp [List.all_cons, hsc, ih3]
        | true => simp [List.all_cons, hsc, hp2 hsc, ih3]

/-- C3: for every document scan with retry budget B =
`cfg.maxRetryPages`: at most B pages are re-rendered and re-analysed at
the higher retry resolution; a page reached after the shared budget is
exhausted never triggers a re-render; and on every retry whose re-render
produced an image the budget is decremented by one before the retry's
outcome is even looked at (the decrement happens whether or not the
retry finds a QR code). -/
theorem C3_retry_budget (avail : Bool) (cfg : PdfCfg) (doc : PdfDoc) :
    (scan_pdf_log avail cfg doc).countP (fun e => e.retryScanned) ≤ cfg.maxRetryPages
    ∧ ((scan_pdf_log avail cfg doc).all
        fun e => !e.retryRendered || decide (0 < e.budgetBefore)) = true
    ∧ ((scan_pdf_log avail cfg doc).all
        fun e => !e.retryScanned || decide (e.budgetAfter + 1 = e.budgetBefore)) = true := by
  unfold scan_pdf_log
  cases avail with
  | false => simp
  | true =>
    cases doc with
    | unopenable m => simp
    | opened ps =>
      by_cases hz : ps.length = 0
      · simp [hz]
      · simpa [hz] using scanPagesGo_budget cfg ps cfg.maxRetryPages 1

/-! ### C6 and C8: the page loop without aborting renders -/

/-- The page loop, when no base render raises: it never aborts, records
one result per page with consecutive 1-based page numbers, counts
qr/scannable pages exactly, and records every empty base render as the
descriptive `renderFailResult`. -/
theorem scanPagesGo_spec (cfg : PdfCfg) :
    ∀ (ps : List PageSpec) (b n : Nat), (ps.all fun p => !p.base.isRaised) = true →
      (scanPagesGo cfg ps b n).err = none
      ∧ (scanPagesGo cfg ps b n).results.length = ps.length
      ∧ numberedFrom n (scanPagesGo cfg ps b n).results = true
      ∧ (scanPagesGo cfg ps b n).qrPages
          = (scanPagesGo cfg ps b n).results.countP (fun r => r.qr_found)
      ∧ (scanPagesGo cfg ps b n).scPages
          = (scanPagesGo cfg ps b n).results.countP (fun r => r.scannable)
      ∧ pagesMatch n ps (scanPagesGo cfg ps b n).results = true := by
  intro ps
  induction ps with
  | nil => intro b n _; simp [scanPagesGo, numberedFrom, pagesMatch]
  | cons p ps ih =>
    intro b n hall
    rw [List.all_cons, Bool.and_eq_true] at hall
    cases hbase : p.base with
    | raised m => rw [hbase] at hall; simp [RenderOutcome.isRaised] at hall
    | empty =>
      obtain ⟨ih1, ih2, ih3, ih4, ih5, ih6⟩ := ih b (n + 1) hall.2
      unfold scanPagesGo
      rw [hbase]
      refine ⟨ih1, by simpa using ih2, ?_, ?_, ?_, ?_⟩
      · simp [numberedFrom, renderFailResult, ih3]
      · simp [List.countP_cons, renderFailResult, ih4]
      · simp [List.countP_cons, renderFailResult, ih5]
      · simp [pagesMatch, hbase, RenderOutcome.isEmptyRender, ih6]
    | page env img =>
      obtain ⟨ih1, ih2, ih3, ih4, ih5, ih6⟩ := ih (scanPage cfg b p env img).2.1 (n + 1) hall.2
      unfold scanPagesGo
      rw [hbase]
      refine ⟨ih1, by simpa using ih2, ?_, ?_, ?_, ?_⟩
      · simp [numberedFrom, ih3]
      · simp only [List.countP_cons, ih4]
        cases hq : ({ (scanPage cfg b p env img).1 with page_number := some n } : ScanResult).qr_found <;>
          simp [hq, Nat.add_comm]
      · simp only [List.countP_cons, ih5]
        cases hq : ({ (scanPage cfg b p env img).1 with page_number := some n } : ScanResult).scannable <;>
          simp [hq, Nat.add_comm]
      · simp [pagesMatch, hbase, RenderOutcome.isEmptyRender, ih6]

/-- C6 counterexample: a two-page document whose first page's base
render raises: the whole document scan aborts with `success=false` and
no recorded pages, instead of recording the failed page and continuing
with page 2 as the claim states. -/
theorem C6_counterexample :
    (scan_pdf_file true cfgFix (PdfDoc.opened [pgRaise, pgNoQr])).success = false
    ∧ (scan_pdf_file true cfgFix (PdfDoc.opened [pgRaise, pgNoQr])).pages = none :=
  ⟨rfl, rfl⟩

/-- C6 amended: when a page fails to rasterize by yielding no image
(`convert_from_path` returning an empty list), that page's result is
recorded as `success=true, qr_found=false` with the descriptive message
"Failed to render PDF page" and the scan continues through all
subsequent pages; but a page render that raises an exception aborts the
whole document scan with `success=false` (only the retry re-render is
wrapped in its own handler). -/
theorem C6_amended (cfg : PdfCfg) (ps : List PageSpec)
    (hraise : (ps.all fun p => !p.base.isRaised) = true) (hne : ps ≠ []) :
    (scan_pdf_file true cfg (PdfDoc.opened ps)).success = true
    ∧ ((scan_pdf_file true cfg (PdfDoc.opened ps)).pages.getD []).length = ps.length
    ∧ pagesMatch 1 ps ((scan_pdf_file true cfg (PdfDoc.opened ps)).pages.getD []) = true := by
  obtain ⟨h1, h2, _, _, _, h6⟩ := scanPagesGo_spec cfg ps cfg.maxRetryPages 1 hraise
  have hz : ¬ ps.length = 0 := by simpa [List.length_eq_zero] using hne
  refine ⟨?_, ?_, ?_⟩ <;> simp [scan_pdf_file, if_neg hz, h1, h2, h6]

/-- C6 witness: a three-page document whose middle page renders to no
image; the scan succeeds, records all three pages, and records page 2 as
the descriptive render-failure result. -/
theorem C6_witness :
    (scan_pdf_file true cfgFix (PdfDoc.opened [pgQr, pgEmpty, pgNoQr])).success = true
    ∧ ((scan_pdf_file true cfgFix (PdfDoc.opened [pgQr, pgEmpty, pgNoQr])).pages.getD []).length = 3
    ∧ pagesMatch 1 [pgQr, pgEmpty, pgNoQr]
        ((scan_pdf_file true cfgFix (PdfDoc.opened [pgQr, pgEmpty, pgNoQr])).pages.getD []) = true :=
  C6_amended cfgFix [pgQr, pgEmpty, pgNoQr] rfl (List.cons_ne_nil _ _)

/-- C8: a document scan that completes (no page-loop exception) reports
`total_pages` equal to the page count, one result per page with
`pages[i].page_number == i+1`, `pages_with_qr` equal to the number of
page results with `qr_found` true, and `qr_count` equal to the sum of
the per-page `qr_count` values (absent keys read as 0, as the source's
`r.get("qr_count", 0)` does). -/
theorem C8_document_aggregation (cfg : PdfCfg) (ps : List PageSpec)
    (hraise : (ps.all fun p => !p.base.isRaised) = true) (hne : ps ≠ []) :
    (scan_pdf_file true cfg (PdfDoc.opened ps)).success = true
    ∧ (scan_pdf_file true cfg (PdfDoc.opened ps)).total_pages = some ps.length
    ∧ ((scan_pdf_file true cfg (PdfDoc.opened ps)).pages.getD []).length = ps.length
    ∧ numberedFrom 1 ((scan_pdf_file true cfg (PdfDoc.opened ps)).pages.getD []) = true
    ∧ (scan_pdf_file true cfg (PdfDoc.opened ps)).pages_with_qr
        = some (((scan_pdf_file true cfg (PdfDoc.opened ps)).pages.getD []).countP
            fun r => r.qr_found)
    ∧ (scan_pdf_file true cfg (PdfDoc.opened ps)).qr_count
        = some ((((scan_pdf_file true cfg (PdfDoc.opened ps)).pages.getD []).map
            fun r => r.qr_count.getD 0).sum) := by
  obtain ⟨h1, h2, h3, h4, _, _⟩ := scanPagesGo_spec cfg ps cfg.maxRetryPages 1 hraise
  have hz : ¬ ps.length = 0 := by simpa [List.length_eq_zero] using hne
  refine ⟨?_, ?_, ?_, ?_, ?_, ?_⟩ <;> simp [scan_pdf_file, if_neg hz, h1, h2, h3, h4]

/-- C8 witness: the aggregation theorem applied to a concrete three-page
document (one decodable page, one empty render, one blank page). -/
theorem C8_witness :
    (scan_pdf_file true cfgFix (PdfDoc.opened [pgQr, pgEmpty, pgNoQr])).total_pages = some 3
    ∧ (scan_pdf_file true cfgFix (PdfDoc.opened [pgQr, pgEmpty, pgNoQr])).pages_with_qr
        = some (((scan_pdf_file true cfgFix
            (PdfDoc.opened [pgQr, pgEmpty, pgNoQr])).pages.getD []).countP
            fun r => r.qr_found) :=
  ⟨(C8_document_aggregation cfgFix [pgQr, pgEmpty, pgNoQr] rfl (List.cons_ne_nil _ _)).2.1,
   (C8_document_aggregation cfgFix [pgQr, pgEmpty, pgNoQr] rfl (List.cons_ne_nil _ _)).2.2.2.2.1⟩

/-! ### C1 -/

/-- The validation of `_run_detection` never accepts a coordinate-like
payload: one `processPayload` step preserves coordinate-freeness of the
accumulator. -/
theorem processPayload_coord (st : DetState) (p : RawPayload)
    (h : ∀ s ∈ st.1, claimCoordLike s = false) :
    ∀ s ∈ (processPayload st p).1, claimCoordLike s = false := by
  cases p with
  | nonText => exact h
  | txt s0 =>
    simp only [processPayload]
    split_ifs with h1 h2 h3 h4 h5
    · exact h
    · exact h
    · exact h
    · exact h
    · intro s hs
      rcases List.mem_append.mp hs with hs | hs
      · exact h s hs
      · have hs1 : s = stripQuotes (pyStrip s0) := by simpa using hs
        subst hs1
        have hx2 : startsWithStr (pyLStrip (stripQuotes (pyStrip s0))) "[" = false :=
          Bool.eq_false_iff.mpr h2
        have hx3 : (pyLStrip (stripQuotes (pyStrip s0))).toList.all isCoordChar = false :=
          Bool.eq_false_iff.mpr h3
        simp only [claimCoordLike, hx2, hx3, Bool.or_self]
    · exact h

/-- Folding the validator over a payload list preserves
coordinate-freeness. -/
theorem foldPP_coord (l : List RawPayload) : ∀ (st : DetState),
    (∀ s ∈ st.1, claimCoordLike s = false) →
    ∀ s ∈ (l.foldl processPayload st).1, claimCoordLike s = false := by
  induction l with
  | nil => intro st h; simpa using h
  | cons p l ih => intro st h; exact ih _ (processPayload_coord st p h)

/-- The full rotation sweep preserves coordinate-freeness. -/
theorem run_detection_coord (env : DecodeEnv) (v : VariantTag) (st : DetState)
    (h : ∀ s ∈ st.1, claimCoordLike s = false) :
    ∀ s ∈ (run_detection env v st).1, claimCoordLike s = false := by
  suffices hgen : ∀ (as : List Nat) (st : DetState),
      (∀ s ∈ st.1, claimCoordLike s = false) →
      ∀ s ∈ (as.foldl (detAngle env v) st).1, claimCoordLike s = false by
    exact hgen angles st h
  intro as
  induction as with
  | nil => intro st h; simpa using h
  | cons a as ih =>
    intro st h
    apply ih
    simp only [detAngle]
    exact foldPP_coord _ _ h

/-- With no single-symbol payload, `singlePass` leaves the accumulator
unchanged. -/
theorem singlePass_none_fst (env : DecodeEnv) (st : DetState)
    (h : env.singleDecode = none) : (singlePass env st).1 = st.1 := by
  simp [singlePass, h]

/-- With an empty pyzbar decode, `pyzbarPass` leaves the accumulator
unchanged. -/
theorem pyzbarPass_empty_fst (env : DecodeEnv) (st : DetState)
    (h : ∀ v, env.pyzbarDecode v = []) : (pyzbarPass env st).1 = st.1 := by
  cases hav : env.pyzbarAvailable with
  | false => simp [pyzbarPass, hav]
  | true =>
    simp [pyzbarPass, hav, h, zbarFold]
    split <;> rfl

/-- With an empty QReader decode, `qreaderPass` leaves the accumulator
unchanged. -/
theorem qreaderPass_empty_fst (env : DecodeEnv) (st : DetState)
    (h : env.qreaderDecode = []) : (qreaderPass env st).1 = st.1 := by
  cases hav : env.qreaderAvailable with
  | false => simp [qreaderPass, hav]
  | true => simp [qreaderPass, hav, h]

/-- Record lists built from coordinate-free payloads are
coordinate-free. -/
theorem mkRecords_coord : ∀ (l : List String) (i : Nat),
    (∀ s ∈ l, claimCoordLike s = false) →
    ((mkRecords i l).all fun r => !claimCoordLike r.content) = true := by
  intro l
  induction l with
  | nil => intro i _; simp [mkRecords]
  | cons c cs ih =>
    intro i h
    simp only [mkRecords, List.all_cons, Bool.and_eq_true]
    refine ⟨?_, ih (i + 1) fun s hs => h s (List.mem_cons_of_mem _ hs)⟩
    simp [h c (List.mem_cons_self _ _)]

/-- C1 counterexample: an image on which every OpenCV pass fails and the
pyzbar fallback decodes a QR symbol whose textual payload is exactly
"[[12,34],[56,78]]": the coordinate-dump string is accepted as a record
of `qr_codes`, because the coordinate filter is applied only inside
`_run_detection`, not in the fallback blocks. -/
theorem C1_counterexample :
    (((analyze_qr_code envCoordZbar imgSmall).qr_codes.getD []).any
      fun r => claimCoordLike r.content) = true := by decide

/-- C1 amended: the coordinate/geometry-dump rejection holds for every
payload surfaced by the primary multi-symbol rotation sweeps (passes 1
and 2): when the fallback engines contribute no payload (no
single-symbol payload, empty pyzbar and QReader decodes), no record of
`qr_codes` is coordinate-like.  Payloads surfaced by the single-detect,
pyzbar and QReader fallback blocks bypass the filter and may be
coordinate-like. -/
theorem C1_amended (env : DecodeEnv) (img : Image)
    (h1 : env.singleDecode = none)
    (h2 : ∀ v, env.pyzbarDecode v = [])
    (h3 : env.qreaderDecode = []) :
    (((analyze_qr_code env img).qr_codes.getD []).all
      fun r => !claimCoordLike r.content) = true := by
  have hP1 : ∀ s ∈ (pass1 env).1, claimCoordLike s = false := by
    simp only [pass1]
    apply run_detection_coord
    simp
  have hP2 : ∀ s ∈ (pass2 env img).1, claimCoordLike s = false := by
    unfold pass2
    split
    · split
      · exact run_detection_coord _ _ _ (run_detection_coord _ _ _ hP1)
      · exact run_detection_coord _ _ _ hP1
    · exact hP1
  have hP3 : ∀ s ∈ (pass3 env img).1, claimCoordLike s = false := by
    unfold pass3
    split
    · rw [singlePass_none_fst _ _ h1]; exact hP2
    · exact hP2
  have hPre : ∀ s ∈ (prePipeline env img).1, claimCoordLike s = false := by
    unfold prePipeline
    split
    · rw [pyzbarPass_empty_fst _ _ h2]; exact hP3
    · exact hP3
  have hpipe : ∀ s ∈ (runPipeline env img).1, claimCoordLike s = false := by
    unfold runPipeline
    split
    · rw [qreaderPass_empty_fst _ _ h3]; exact hPre
    · exact hPre
  unfold analyze_qr_code analyzeTraced
  cases henv : env.processingError with
  | some m => simp [analysisFailure]
  | none =>
    by_cases he : (runPipeline env img).1.isEmpty
    · simp [he, notFoundResult]
    · simp only [he, if_neg, Bool.false_eq_true, foundResult]
      simpa using mkRecords_coord _ 0 hpipe

/-- C1 witness: the amended rejection theorem applied to a concrete
environment in which the primary engine decodes "hello" and every
fallback is silent. -/
theorem C1_witness :
    (((analyze_qr_code envHello imgSmall).qr_codes.getD []).all
      fun r => !claimCoordLike r.content) = true :=
  C1_amended envHello imgSmall rfl (fun _ => rfl) rfl

/-! ### C2 -/

/-- `dedupFirst` of a one-element extension is its fold step. -/
theorem dedupFirst_append_one (l : List String) (s : String) :
    dedupFirst (l ++ [s])
      = if s ∈ dedupFirst l then dedupFirst l else dedupFirst l ++ [s] := by
  simp [dedupFirst, List.foldl_append]

/-- The dedup fold never shrinks a non-empty accumulator. -/
theorem dedup_go_ne_nil (l : List String) : ∀ (acc : List String), acc ≠ [] →
    l.foldl (fun acc s => if s ∈ acc then acc else acc ++ [s]) acc ≠ [] := by
  induction l with
  | nil => intro acc h; simpa using h
  | cons x xs ih =>
    intro acc h
    rw [List.foldl_cons]
    by_cases hm : x ∈ acc
    · rw [if_pos hm]; exact ih acc h
    · rw [if_neg hm]; exact ih _ (by simp)

/-- `dedupFirst` preserves emptiness. -/
theorem dedupFirst_eq_nil_iff (l : List String) : dedupFirst l = [] ↔ l = [] := by
  cases l with
  | nil => simp [dedupFirst]
  | cons x xs =>
    constructor
    · intro h
      exfalso
      have hne : dedupFirst (x :: xs) ≠ [] := by
        have : ([x] : List String) ≠ [] := by simp
        simpa [dedupFirst, List.foldl_cons] using dedup_go_ne_nil xs [x] this
      exact hne h
    · intro h; simp at h

/-- `dedupFirst` preserves `isEmpty`. -/
theorem dedupFirst_isEmpty (l : List String) : (dedupFirst l).isEmpty = l.isEmpty := by
  cases hl : dedupFirst l with
  | nil => rw [(dedupFirst_eq_nil_iff l).mp hl]
  | cons x xs =>
    have : l ≠ [] := by
      intro hn; subst hn; simp [dedupFirst] at hl
    cases l with
    | nil => simp at this
    | cons y ys => simp

/-- The dedup fold preserves `Nodup`. -/
theorem dedup_go_nodup (l : List String) : ∀ (acc : List String), acc.Nodup →
    (l.foldl (fun acc s => if s ∈ acc then acc else acc ++ [s]) acc).Nodup := by
  induction l with
  | nil => intro acc h; simpa using h
  | cons x xs ih =>
    intro acc h
    rw [List.foldl_cons]
    by_cases hm : x ∈ acc
    · rw [if_pos hm]; exact ih acc h
    · rw [if_neg hm]
      refine ih _ ?_
      rw [← List.concat_eq_append]
      exact List.Nodup.concat hm h

/-- The output of `dedupFirst` has no duplicates. -/
theorem dedupFirst_nodup (l : List String) : (dedupFirst l).Nodup :=
  dedup_go_nodup l [] List.nodup_nil

/-- The validator with dedup, run on a deduplicated accumulator,
computes the dedup of the validator without dedup. -/
theorem pp_rel (p : RawPayload) (c : List String) (evs : List Event) :
    (processPayload (dedupFirst c, evs) p).1 = dedupFirst (processPayloadC c p) := by
  cases p with
  | nonText => rfl
  | txt s0 =>
    simp only [processPayload, processPayloadC]
    split_ifs with h1 h2 h3 h4 h5
    · rfl
    · rfl
    · rfl
    · rw [dedupFirst_append_one, if_pos h5]
    · rw [dedupFirst_append_one, if_neg h5]
    · rfl

/-- Payload-list fold version of `pp_rel`. -/
theorem foldPP_rel (l : List RawPayload) : ∀ (c : List String) (evs : List Event),
    ((l.foldl processPayload (dedupFirst c, evs)).1)
      = dedupFirst (l.foldl processPayloadC c) := by
  induction l with
  | nil => intro c evs; rfl
  | cons p l ih =>
    intro c evs
    have h1 := pp_rel p c evs
    have hpair : processPayload (dedupFirst c, evs) p
        = (dedupFirst (processPayloadC c p), (processPayload (dedupFirst c, evs) p).2) := by
      rw [← h1]
    rw [List.foldl_cons, List.foldl_cons, hpair]
    exact ih (processPayloadC c p) _

/-- Rotation-sweep version of `pp_rel`. -/
theorem foldAngles_rel (env : DecodeEnv) (v : VariantTag) (as : List Nat) :
    ∀ (c : List String) (evs : List Event),
    ((as.foldl (detAngle env v) (dedupFirst c, evs)).1)
      = dedupFirst (as.foldl (candAngle env v) c) := by
  induction as with
  | nil => intro c evs; rfl
  | cons a as ih =>
    intro c evs
    have h1 : (detAngle env v (dedupFirst c, evs) a).1 = dedupFirst (candAngle env v c a) := by
      simp only [detAngle, candAngle]
      exact foldPP_rel _ _ _
    have hpair : detAngle env v (dedupFirst c, evs) a
        = (dedupFirst (candAngle env v c a), (detAngle env v (dedupFirst c, evs) a).2) := by
      rw [← h1]
    rw [List.foldl_cons, List.foldl_cons, hpair]
    exact ih (candAngle env v c a) _

/-- `run_detection` computes the dedup of `candDetection`. -/
theorem run_detection_rel (env : DecodeEnv) (v : VariantTag) (c : List String)
    (evs : List Event) :
    (run_detection env v (dedupFirst c, evs)).1 = dedupFirst (candDetection env v c) := by
  simp only [run_detection, candDetection]
  exact foldAngles_rel env v angles c evs

/-- On an empty accumulator `singlePass` computes the dedup of
`candSingle` (the fallback appends at most one payload). -/
theorem singlePass_rel (env : DecodeEnv) (evs : List Event) :
    (singlePass env ([], evs)).1 = dedupFirst (candSingle env []) := by
  cases hq : env.singleDecode with
  | none => simp [singlePass, candSingle, hq, dedupFirst]
  | some q =>
    by_cases hs : stripQuotes (pyStrip q) = ""
    · simp [singlePass, candSingle, hq, hs, dedupFirst]
    · simp [singlePass, candSingle, hq, hs, dedupFirst]

/-- Under silent pyzbar/QReader fallbacks the accepted payload list is
exactly the first-occurrence dedup of the pre-dedup validated payload
stream. -/
theorem pipeline_rel (env : DecodeEnv) (img : Image)
    (h2 : ∀ v, env.pyzbarDecode v = []) (h3 : env.qreaderDecode = []) :
    (runPipeline env img).1 = dedupFirst (candPipeline env img) := by
  have hr1 : (pass1 env).1 = dedupFirst (candDetection env VariantTag.enhanced []) := by
    have : (([], []) : DetState) = (dedupFirst [], []) := by simp [dedupFirst]
    rw [pass1, this]
    exact run_detection_rel env VariantTag.enhanced [] []
  have hpair1 : pass1 env
      = (dedupFirst (candDetection env VariantTag.enhanced []), (pass1 env).2) := by
    rw [← hr1]
  have hrU : (run_detection env (upVariant img) (pass1 env)).1
      = dedupFirst (candDetection env (upVariant img)
          (candDetection env VariantTag.enhanced [])) := by
    rw [hpair1]
    exact run_detection_rel env (upVariant img) _ _
  have hpairU : run_detection env (upVariant img) (pass1 env)
      = (dedupFirst (candDetection env (upVariant img)
          (candDetection env VariantTag.enhanced [])),
         (run_detection env (upVariant img) (pass1 env)).2) := by
    rw [← hrU]
  have hrT : (run_detection env VariantTag.thresh
        (run_detection env (upVariant img) (pass1 env))).1
      = dedupFirst (candDetection env VariantTag.thresh
          (candDetection env (upVariant img)
            (candDetection env VariantTag.enhanced []))) := by
    rw [hpairU]
    exact run_detection_rel env VariantTag.thresh _ _
  have hr2 : (pass2 env img).1
      = dedupFirst (candPipelineStage2 env img) := by
    unfold pass2 candPipelineStage2
    rw [hr1, dedupFirst_isEmpty]
    by_cases he1 : (candDetection env VariantTag.enhanced []).isEmpty
    · rw [if_pos he1, if_pos he1, hrU, dedupFirst_isEmpty]
      by_cases heU : (candDetection env (upVariant img)
          (candDetection env VariantTag.enhanced [])).isEmpty
      · rw [if_pos heU, if_pos heU, hrT]
      · rw [if_neg heU, if_neg heU, hrU]
    · rw [if_neg he1, if_neg he1, hr1]
  have hpair2 : pass2 env img = (dedupFirst (candPipelineStage2 env img), (pass2 env img).2) := by
    rw [← hr2]
  have hr3 : (pass3 env img).1 = dedupFirst (candPipeline env img) := by
    unfold pass3 candPipeline
    rw [hr2, dedupFirst_isEmpty]
    by_cases he2 : (candPipelineStage2 env img).isEmpty
    · rw [if_pos he2, if_pos he2]
      have hnil : candPipelineStage2 env img = [] := by
        simpa using he2
      have : pass2 env img = (([] : List String), (pass2 env img).2) := by
        rw [hpair2, hnil]
        simp [dedupFirst]
      rw [this, hnil]
      exact singlePass_rel env _
    · rw [if_neg he2, if_neg he2, hr2]
  have hr4 : (prePipeline env img).1 = (pass3 env img).1 := by
    unfold prePipeline
    split
    · rw [pyzbarPass_empty_fst _ _ h2]
    · rfl
  unfold runPipeline
  split
  · rw [qreaderPass_empty_fst _ _ h3, hr4, hr3]
  · rw [hr4, hr3]

/-- The record contents are the accepted payloads, in order. -/
theorem mkRecords_map : ∀ (l : List String) (i : Nat),
    (mkRecords i l).map (fun r => r.content) = l := by
  intro l
  induction l with
  | nil => intro i; simp [mkRecords]
  | cons c cs ih => intro i; simp [mkRecords, ih (i + 1)]

/-- C2 counterexample: an image on which every OpenCV pass fails and the
pyzbar fallback decodes two identical symbols in one decode call: the
result contains two records with the same payload string, because the
`seen_qr` deduplication exists only in `_run_detection`, not in the
fallback blocks. -/
theorem C2_counterexample :
    ¬ (((analyze_qr_code envDupZbar imgSmall).qr_codes.getD []).map
      fun r => r.content).Nodup := by decide

/-- C2 amended: deduplication by exact string equality — first
occurrence wins, order preserved — holds for the payloads of the primary
rotation sweeps and the single-symbol fallback: when the pyzbar and
QReader fallbacks contribute no payload (and no preprocessing exception
occurs), the record contents equal the first-occurrence dedup of the
pre-dedup validated payload stream, and in particular contain no
duplicate string.  Duplicate symbols decoded in one pyzbar or QReader
fallback call produce duplicate records. -/
theorem C2_amended (env : DecodeEnv) (img : Image)
    (h0 : env.processingError = none)
    (h2 : ∀ v, env.pyzbarDecode v = [])
    (h3 : env.qreaderDecode = []) :
    (((analyze_qr_code env img).qr_codes.getD []).map fun r => r.content)
        = dedupFirst (candPipeline env img)
    ∧ (((analyze_qr_code env img).qr_codes.getD []).map fun r => r.content).Nodup := by
  have hpipe := pipeline_rel env img h2 h3
  have hmain : (((analyze_qr_code env img).qr_codes.getD []).map fun r => r.content)
      = dedupFirst (candPipeline env img) := by
    unfold analyze_qr_code analyzeTraced
    rw [h0]
    by_cases he : (runPipeline env img).1.isEmpty
    · have hnil : (runPipeline env img).1 = [] := by simpa using he
      rw [hnil] at hpipe
      simp only [he, if_pos, notFoundResult]
      simpa using hpipe
    · simp only [he, Bool.false_eq_true, if_neg, foundResult]
      rw [← hpipe]
      simpa using mkRecords_map (runPipeline env img).1 0
  refine ⟨hmain, ?_⟩
  rw [hmain]
  exact dedupFirst_nodup _

/-- C2 witness: the amended theorem applied to an environment in which
the primary engine decodes the same payload at every rotation angle of
every variant: the result keeps exactly one record. -/
theorem C2_witness :
    (((analyze_qr_code envDupAngles imgSmall).qr_codes.getD []).map fun r => r.content)
        = dedupFirst (candPipeline envDupAngles imgSmall)
    ∧ (((analyze_qr_code envDupAngles imgSmall).qr_codes.getD []).map
        fun r => r.content).Nodup :=
  C2_amended envDupAngles imgSmall rfl (fun _ => rfl) rfl

/-! ### C5 -/

/-- The validator never emits a QReader invocation event. -/
theorem processPayload_noqr (st : DetState) (p : RawPayload)
    (h : Event.call EngineCall.qreader ∉ st.2) :
    Event.call EngineCall.qreader ∉ (processPayload st p).2 := by
  cases p with
  | nonText => exact h
  | txt s0 =>
    simp only [processPayload]
    split_ifs with h1 h2 h3 h4 h5
    · exact h
    · exact h
    · exact h
    · exact h
    · intro hmem
      rcases List.mem_append.mp hmem with hm | hm
      · exact h hm
      · simp at hm
    · exact h

/-- Payload-fold version of `processPayload_noqr`. -/
theorem foldPP_noqr (l : List RawPayload) : ∀ (st : DetState),
    Event.call EngineCall.qreader ∉ st.2 →
    Event.call EngineCall.qreader ∉ (l.foldl processPayload st).2 := by
  induction l with
  | nil => intro st h; simpa using h
  | cons p l ih => intro st h; exact ih _ (processPayload_noqr st p h)

/-- A primary-engine sweep never emits a QReader invocation event. -/
theorem run_detection_noqr (env : DecodeEnv) (v : VariantTag) (st : DetState)
    (h : Event.call EngineCall.qreader ∉ st.2) :
    Event.call EngineCall.qreader ∉ (run_detection env v st).2 := by
  suffices hgen : ∀ (as : List Nat) (st : DetState),
      Event.call EngineCall.qreader ∉ st.2 →
      Event.call EngineCall.qreader ∉ (as.foldl (detAngle env v) st).2 by
    exact hgen angles st h
  intro as
  induction as with
  | nil => intro st h; simpa using h
  | cons a as ih =>
    intro st h
    apply ih
    simp only [detAngle]
    apply foldPP_noqr
    intro hmem
    rcases List.mem_append.mp hmem with hm | hm
    · exact h hm
    · simp at hm

/-- The single-symbol fallback never emits a QReader invocation
event. -/
theorem singlePass_noqr (env : DecodeEnv) (st : DetState)
    (h : Event.call EngineCall.qreader ∉ st.2) :
    Event.call EngineCall.qreader ∉ (singlePass env st).2 := by
  have hc : Event.call EngineCall.qreader ∉ st.2 ++ [Event.call EngineCall.single] := by
    intro hmem
    rcases List.mem_append.mp hmem with hm | hm
    · exact h hm
    · simp at hm
  cases hq : env.singleDecode with
  | none => simpa [singlePass, hq] using hc
  | some q =>
    by_cases hs : stripQuotes (pyStrip q) = ""
    · simpa [singlePass, hq, hs] using hc
    · simp only [singlePass, hq, hs, if_neg]
      intro hmem
      rcases List.mem_append.mp hmem with hm | hm
      · exact hc hm
      · simp at hm

/-- The pyzbar symbol fold never emits a QReader invocation event. -/
theorem zbarFold_noqr (syms : List ZbarSym) : ∀ (st : DetState),
    Event.call EngineCall.qreader ∉ st.2 →
    Event.call EngineCall.qreader ∉ (zbarFold st syms).1.2 := by
  induction syms with
  | nil => intro st h; simpa [zbarFold] using h
  | cons d ds ih =>
    intro st h
    by_cases ht : d.typ ≠ "QRCODE"
    · simpa [zbarFold, ht] using ih st h
    · cases hd : d.data with
      | none => simpa [zbarFold, ht, hd] using h
      | some s =>
        by_cases hs : pyStrip s = ""
        · simpa [zbarFold, ht, hd, hs] using ih st h
        · simp only [zbarFold, ht, hd, hs, if_neg]
          simp only [ite_false]
          apply ih
          intro hmem
          rcases List.mem_append.mp hmem with hm | hm
          · exact h hm
          · simp at hm

/-- The pyzbar fallback never emits a QReader invocation event. -/
theorem pyzbarPass_noqr (env : DecodeEnv) (st : DetState)
    (h : Event.call EngineCall.qreader ∉ st.2) :
    Event.call EngineCall.qreader ∉ (pyzbarPass env st).2 := by
  have hcand : ∀ v : VariantTag,
      Event.call EngineCall.qreader ∉ st.2 ++ [Event.call (EngineCall.pyzbar v)] → True := fun _ _ => trivial
  cases hav : env.pyzbarAvailable with
  | false => simpa [pyzbarPass, hav] using h
  | true =>
    simp only [pyzbarPass, hav, if_true]
    have hE : Event.call EngineCall.qreader
        ∉ st.2 ++ [Event.call (EngineCall.pyzbar VariantTag.enhanced)] := by
      intro hmem
      rcases List.mem_append.mp hmem with hm | hm
      · exact h hm
      · simp at hm
    have h1 := zbarFold_noqr (env.pyzbarDecode VariantTag.enhanced)
      (st.1, st.2 ++ [Event.call (EngineCall.pyzbar VariantTag.enhanced)]) hE
    split
    · exact h1
    · split
      · exact h1
      · apply zbarFold_noqr
        intro hmem
        rcases List.mem_append.mp hmem with hm | hm
        · exact h1 hm
        · simp at hm

/-- No QReader invocation event is emitted before the QReader block. -/
theorem prePipeline_noqr (env : DecodeEnv) (img : Image) :
    Event.call EngineCall.qreader ∉ (prePipeline env img).2 := by
  have h1 : Event.call EngineCall.qreader ∉ (pass1 env).2 := by
    simp only [pass1]
    exact run_detection_noqr env _ _ (by simp)
  have h2 : Event.call EngineCall.qreader ∉ (pass2 env img).2 := by
    unfold pass2
    split
    · split
      · exact run_detection_noqr env _ _ (run_detection_noqr env _ _ h1)
      · exact run_detection_noqr env _ _ h1
    · exact h1
  have h3 : Event.call EngineCall.qreader ∉ (pass3 env img).2 := by
    unfold pass3
    split
    · exact singlePass_noqr env _ h2
    · exact h2
  unfold prePipeline
  split
  · exact pyzbarPass_noqr env _ h3
  · exact h3

/-- The QReader fold only appends events. -/
theorem qrFold_mono (l : List (Option String)) : ∀ (st : DetState) (e : Event), e ∈ st.2 →
    e ∈ (l.foldl (fun st t =>
      match t with
      | some s => if s ≠ "" then (st.1 ++ [pyStrip s], st.2 ++ [Event.accept (pyStrip s)]) else st
      | none => st) st).2 := by
  induction l with
  | nil => intro st e h; simpa using h
  | cons t l ih =>
    intro st e h
    rw [List.foldl_cons]
    cases t with
    | none => exact ih st e h
    | some s =>
      by_cases hs : s = ""
      · simpa [hs] using ih st e h
      · simp only [hs, ne_eq, not_false_eq_true, if_pos]
        exact ih _ e (List.mem_append.mpr (Or.inl h))

/-- C5 counterexample: on a 100000x100000-pixel image (far above both
size constants, 1800 and 2200, that appear anywhere in the pipeline) on
which everything else fails, the QReader engine is still invoked: no
image-size ceiling gates the tertiary engine in the source. -/
theorem C5_counterexample :
    Event.call EngineCall.qreader ∈ (analyzeTraced envQrAvail imgHuge).2
    ∧ ¬ (imgHuge.maxDim < 2200) := by
  constructor
  · decide
  · decide

/-- C5 amended: the tertiary (QReader) engine is invoked exactly when no
earlier pass accepted a payload, the engine is importable, and no
preprocessing exception occurred — for images of every size (there is no
maximum-dimension ceiling).  An unavailable engine is soft-skipped: the
result's error field still reflects only preprocessing failures, so
capability absence never surfaces as an error. -/
theorem C5_amended (env : DecodeEnv) (img : Image) :
    (Event.call EngineCall.qreader ∈ (analyzeTraced env img).2
      ↔ env.processingError = none ∧ env.qreaderAvailable = true
        ∧ (prePipeline env img).1 = [])
    ∧ (analyze_qr_code env img).error = env.processingError := by
  refine ⟨?_, (analyze_fields env img).2.1⟩
  cases hpe : env.processingError with
  | some m =>
    simp only [analyzeTraced, hpe]
    simp
  | none =>
    simp only [analyzeTraced, hpe]
    unfold runPipeline
    by_cases he : (prePipeline env img).1.isEmpty
    · rw [if_pos he]
      cases hav : env.qreaderAvailable with
      | false =>
        simp only [qreaderPass, hav, Bool.false_eq_true, if_neg]
        constructor
        · intro hmem
          exact absurd hmem (prePipeline_noqr env img)
        · rintro ⟨-, hfalse, -⟩
          simp at hfalse
      | true =>
        constructor
        · intro _
          exact ⟨trivial, rfl, by simpa using he⟩
        · intro _
          simp only [qreaderPass, hav, if_true]
          apply qrFold_mono
          exact List.mem_append.mpr (Or.inr (by simp))
    · rw [if_neg he]
      constructor
      · intro hmem
        exact absurd hmem (prePipeline_noqr env img)
      · rintro ⟨-, -, hnil⟩
        rw [hnil] at he
        simp at he

/-! ### C7 -/

/-- `dropWhile` consumes a list on which the predicate holds
throughout. -/
theorem dropWhile_all_nil {α : Type} (p : α → Bool) :
    ∀ (l : List α), (∀ e ∈ l, p e = true) → l.dropWhile p = [] := by
  intro l
  induction l with
  | nil => intro _; rfl
  | cons a l ih =>
    intro h
    rw [List.dropWhile_cons, if_pos (h a (by simp))]
    exact ih fun e he => h e (by simp [he])

/-- `takeWhile` of a list split at the first predicate failure. -/
theorem takeWhile_middle {α : Type} (p : α → Bool) :
    ∀ (l1 : List α) (x : α) (l2 : List α), (∀ e ∈ l1, p e = true) → p x = false →
      (l1 ++ x :: l2).takeWhile p = l1 := by
  intro l1
  induction l1 with
  | nil => intro x l2 _ hx; simp [List.takeWhile_cons, hx]
  | cons a l ih =>
    intro x l2 h hx
    have ha : p a = true := h a (by simp)
    simp only [List.cons_append, List.takeWhile_cons, ha, if_pos]
    rw [ih x l2 (fun e he => h e (by simp [he])) hx]

/-- `dropWhile` of a list split at the first predicate failure. -/
theorem dropWhile_middle {α : Type} (p : α → Bool) :
    ∀ (l1 : List α) (x : α) (l2 : List α), (∀ e ∈ l1, p e = true) → p x = false →
      (l1 ++ x :: l2).dropWhile p = x :: l2 := by
  intro l1
  induction l1 with
  | nil => intro x l2 _ hx; simp [List.dropWhile_cons, hx]
  | cons a l ih =>
    intro x l2 h hx
    have ha : p a = true := h a (by simp)
    simp only [List.cons_append, List.dropWhile_cons, ha, if_pos]
    exact ih x l2 (fun e he => h e (by simp [he])) hx

/-- Appending an acceptance does not change the sweep in progress. -/
theorem curVariant_append_accept (t : List Event) (s : String) :
    curVariant (t ++ [Event.accept s]) = curVariant t := by
  simp [curVariant, List.filterMap_append]

/-- After a primary call on `v` the sweep in progress is `v`. -/
theorem curVariant_append_primary (t : List Event) (v : VariantTag) (a : Nat) :
    curVariant (t ++ [Event.call (EngineCall.primary v a)]) = some v := by
  simp [curVariant, List.filterMap_append]

/-- An acceptance-free trace satisfies the amended early-exit
property vacuously. -/
theorem c7ok_of_noAcc (t : List Event) (h : noAcc t = true) : c7ok t = true := by
  have hd : t.dropWhile (fun e => !e.isAcceptEv) = [] := by
    apply dropWhile_all_nil
    intro e he
    exact (List.all_eq_true.mp h) e he
  simp [c7ok, afterFirstAccept, hd]

/-- A sweep-shaped trace satisfies the amended early-exit property. -/
theorem c7ok_of_sweep (v : VariantTag) (t : List Event)
    (h : sweepAcceptShape v t) : c7ok t = true := by
  obtain ⟨pre, s, post, ht, hn, hcv, hall⟩ := h
  have hpre : ∀ e ∈ pre, (fun e => !Event.isAcceptEv e) e = true := by
    intro e he
    exact (List.all_eq_true.mp hn) e he
  have hx : (fun e => !Event.isAcceptEv e) (Event.accept s) = false := by simp [Event.isAcceptEv]
  have hdrop : t.dropWhile (fun e => !e.isAcceptEv) = Event.accept s :: post := by
    rw [ht]; exact dropWhile_middle _ pre _ post hpre hx
  have htake : t.takeWhile (fun e => !e.isAcceptEv) = pre := by
    rw [ht]; exact takeWhile_middle _ pre _ post hpre hx
  simp [c7ok, afterFirstAccept, beforeFirstAccept, hdrop, htake, hcv, hall]

/-- A fallback-shaped trace satisfies the amended early-exit
property. -/
theorem c7ok_of_tail (t : List Event) (h : tailAcceptShape t) : c7ok t = true := by
  obtain ⟨pre, s, post, ht, hn, hall⟩ := h
  have hpre : ∀ e ∈ pre, (fun e => !Event.isAcceptEv e) e = true := by
    intro e he
    exact (List.all_eq_true.mp hn) e he
  have hx : (fun e => !Event.isAcceptEv e) (Event.accept s) = false := by simp [Event.isAcceptEv]
  have hdrop : t.dropWhile (fun e => !e.isAcceptEv) = Event.accept s :: post := by
    rw [ht]; exact dropWhile_middle _ pre _ post hpre hx
  simp only [c7ok, afterFirstAccept, beforeFirstAccept, hdrop, List.drop_one, List.tail_cons]
  rw [List.all_eq_true]
  intro e he
  have hacc : Event.isAcceptEv e = true := (List.all_eq_true.mp hall) e he
  cases e with
  | accept s2 => rfl
  | call c => simp [Event.isAcceptEv] at hacc

/-- One validator step either leaves the state unchanged or appends one
payload together with its acceptance event. -/
theorem pp_step_shape (st : DetState) (p : RawPayload) :
    processPayload st p = st
    ∨ ∃ s, processPayload st p = (st.1 ++ [s], st.2 ++ [Event.accept s]) := by
  cases p with
  | nonText => exact Or.inl rfl
  | txt s0 =>
    simp only [processPayload]
    split_ifs with h1 h2 h3 h4 h5
    · exact Or.inl rfl
    · exact Or.inl rfl
    · exact Or.inl rfl
    · exact Or.inl rfl
    · exact Or.inr ⟨stripQuotes (pyStrip s0), rfl⟩
    · exact Or.inl rfl

/-- A sweep-acceptance-shaped trace absorbs a further acceptance. -/
theorem sweepShape_append_accept (v : VariantTag) (t : List Event) (s : String)
    (h : sweepAcceptShape v t) : sweepAcceptShape v (t ++ [Event.accept s]) := by
  obtain ⟨pre, s0, post, ht, hn, hcv, hall⟩ := h
  refine ⟨pre, s0, post ++ [Event.accept s], by rw [ht]; simp, hn, hcv, ?_⟩
  simp [List.all_append, hall, afterOkEv]

/-- A sweep-acceptance-shaped trace absorbs a further primary call on
its own variant. -/
theorem sweepShape_append_primary (v : VariantTag) (t : List Event) (a : Nat)
    (h : sweepAcceptShape v t) :
    sweepAcceptShape v (t ++ [Event.call (EngineCall.primary v a)]) := by
  obtain ⟨pre, s0, post, ht, hn, hcv, hall⟩ := h
  refine ⟨pre, s0, post ++ [Event.call (EngineCall.primary v a)], by rw [ht]; simp, hn, hcv, ?_⟩
  simp [List.all_append, hall, afterOkEv]

/-- The validator preserves the strengthened sweep invariant. -/
theorem pp_sweepInvS (v : VariantTag) (st : DetState) (p : RawPayload)
    (h : sweepInvS v st) : sweepInvS v (processPayload st p) := by
  rcases pp_step_shape st p with he | ⟨s, he⟩
  · rw [he]; exact h
  · rw [he]
    rcases h with ⟨hnil, hn, hcv⟩ | ⟨hne, hsh⟩
    · right
      refine ⟨by simp, ?_⟩
      exact ⟨st.2, s, [], by simp, hn, hcv, by simp⟩
    · right
      exact ⟨by simp, sweepShape_append_accept v st.2 s hsh⟩

/-- Payload-fold version of `pp_sweepInvS`. -/
theorem foldPP_sweepInvS (v : VariantTag) (l : List RawPayload) :
    ∀ (st : DetState), sweepInvS v st → sweepInvS v (l.foldl processPayload st) := by
  induction l with
  | nil => intro st h; simpa using h
  | cons p l ih => intro st h; exact ih _ (pp_sweepInvS v st p h)

/-- One rotation angle of the sweep preserves the sweep invariant. -/
theorem detAngle_sweepInv (env : DecodeEnv) (v : VariantTag) (st : DetState) (a : Nat)
    (h : sweepInv v st) : sweepInv v (detAngle env v st a) := by
  have hS : sweepInvS v (st.1, st.2 ++ [Event.call (EngineCall.primary v a)]) := by
    rcases h with ⟨hnil, hn⟩ | ⟨hne, hsh⟩
    · left
      refine ⟨hnil, ?_, curVariant_append_primary st.2 v a⟩
      simp [noAcc, List.all_append] at hn ⊢
      exact ⟨hn, by simp [Event.isAcceptEv]⟩
    · right
      exact ⟨hne, sweepShape_append_primary v st.2 a hsh⟩
  have hres := foldPP_sweepInvS v (env.primaryMulti v a) _ hS
  rcases hres with ⟨hnil, hn, _⟩ | hr
  · exact Or.inl ⟨hnil, hn⟩
  · exact Or.inr hr

/-- The full rotation sweep preserves the sweep invariant. -/
theorem run_detection_sweepInv (env : DecodeEnv) (v : VariantTag) (st : DetState)
    (h : sweepInv v st) : sweepInv v (run_detection env v st) := by
  suffices hgen : ∀ (as : List Nat) (st : DetState), sweepInv v st →
      sweepInv v (as.foldl (detAngle env v) st) by
    exact hgen angles st h
  intro as
  induction as with
  | nil => intro st h; simpa using h
  | cons a as ih => intro st h; exact ih _ (detAngle_sweepInv env v st a h)

/-- Appending an engine call keeps a trace acceptance-free. -/
theorem noAcc_append_call (t : List Event) (c : EngineCall) (h : noAcc t = true) :
    noAcc (t ++ [Event.call c]) = true := by
  simp only [noAcc] at h ⊢
  rw [List.all_append]
  exact (Bool.and_eq_true _ _).mpr ⟨h, by simp [Event.isAcceptEv]⟩

/-- A list of acceptance events is all acceptances. -/
theorem all_isAccept_map (Δ : List String) :
    ((Δ.map Event.accept).all Event.isAcceptEv) = true := by
  rw [List.all_eq_true]
  intro e he
  obtain ⟨s, -, hs⟩ := List.mem_map.mp he
  rw [← hs]
  rfl

/-- An acceptance-free prefix followed by a non-empty block of
acceptances has the fallback tail shape. -/
theorem tail_of_delta (pre : List Event) (Δ : List String)
    (hn : noAcc pre = true) (hne : Δ ≠ []) :
    tailAcceptShape (pre ++ Δ.map Event.accept) := by
  cases Δ with
  | nil => simp at hne
  | cons d Δ2 =>
    exact ⟨pre, d, Δ2.map Event.accept, by simp, hn, all_isAccept_map Δ2⟩

/-- The single-symbol fallback on an empty accumulator: either it
accepts nothing (trace still acceptance-free), or its trace has the
fallback tail shape. -/
theorem singlePass_shape (env : DecodeEnv) (st : DetState)
    (hnil : st.1 = []) (hn : noAcc st.2 = true) :
    ((singlePass env st).1 = [] ∧ noAcc (singlePass env st).2 = true)
    ∨ ((singlePass env st).1 ≠ [] ∧ tailAcceptShape (singlePass env st).2) := by
  have hnc : noAcc (st.2 ++ [Event.call EngineCall.single]) = true :=
    noAcc_append_call st.2 EngineCall.single hn
  cases hq : env.singleDecode with
  | none =>
    left
    constructor
    · simpa [singlePass, hq] using hnil
    · simpa [singlePass, hq] using hnc
  | some q =>
    by_cases hs : stripQuotes (pyStrip q) = ""
    · left
      constructor
      · simpa [singlePass, hq, hs] using hnil
      · simpa [singlePass, hq, hs] using hnc
    · right
      constructor
      · simp [singlePass, hq, hs]
      · have hsnd : (singlePass env st).2
            = (st.2 ++ [Event.call EngineCall.single])
              ++ [Event.accept (stripQuotes (pyStrip q))] := by
          simp [singlePass, hq, hs]
        rw [hsnd]
        exact ⟨st.2 ++ [Event.call EngineCall.single], stripQuotes (pyStrip q), [],
          rfl, hnc, rfl⟩

/-- The pyzbar symbol fold appends exactly its accepted payloads, as
payload/event pairs, to the state (whether or not a decode error aborts
it). -/
theorem zbarFold_shape (syms : List ZbarSym) : ∀ (st : DetState),
    ∃ Δ, (zbarFold st syms).1.1 = st.1 ++ Δ
      ∧ (zbarFold st syms).1.2 = st.2 ++ Δ.map Event.accept := by
  induction syms with
  | nil => intro st; exact ⟨[], by simp [zbarFold], by simp [zbarFold]⟩
  | cons d ds ih =>
    intro st
    by_cases ht : d.typ ≠ "QRCODE"
    · simpa [zbarFold, ht] using ih st
    · cases hd : d.data with
      | none => exact ⟨[], by simp [zbarFold, ht, hd], by simp [zbarFold, ht, hd]⟩
      | some s =>
        by_cases hs : pyStrip s = ""
        · simpa [zbarFold, ht, hd, hs] using ih st
        · obtain ⟨Δ, h1, h2⟩ := ih (st.1 ++ [pyStrip s], st.2 ++ [Event.accept (pyStrip s)])
          refine ⟨pyStrip s :: Δ, ?_, ?_⟩
          · rw [show zbarFold st (d :: ds)
                = zbarFold (st.1 ++ [pyStrip s], st.2 ++ [Event.accept (pyStrip s)]) ds by
                  simp [zbarFold, ht, hd, hs]]
            rw [h1]
            simp
          · rw [show zbarFold st (d :: ds)
                = zbarFold (st.1 ++ [pyStrip s], st.2 ++ [Event.accept (pyStrip s)]) ds by
                  simp [zbarFold, ht, hd, hs]]
            rw [h2]
            simp

/-- The pyzbar fallback on an empty accumulator: either it accepts
nothing, or its trace has the fallback tail shape. -/
theorem pyzbarPass_shape (env : DecodeEnv) (st : DetState)
    (hnil : st.1 = []) (hn : noAcc st.2 = true) :
    ((pyzbarPass env st).1 = [] ∧ noAcc (pyzbarPass env st).2 = true)
    ∨ ((pyzbarPass env st).1 ≠ [] ∧ tailAcceptShape (pyzbarPass env st).2) := by
  cases hav : env.pyzbarAvailable with
  | false =>
    left
    constructor
    · simpa [pyzbarPass, hav] using hnil
    · simpa [pyzbarPass, hav] using hn
  | true =>
    have hnE : noAcc (st.2 ++ [Event.call (EngineCall.pyzbar VariantTag.enhanced)]) = true :=
      noAcc_append_call st.2 _ hn
    obtain ⟨Δ1, hA1, hE1⟩ := zbarFold_shape (env.pyzbarDecode VariantTag.enhanced)
      (st.1, st.2 ++ [Event.call (EngineCall.pyzbar VariantTag.enhanced)])
    have hcases1 :
        ((zbarFold (st.1, st.2 ++ [Event.call (EngineCall.pyzbar VariantTag.enhanced)])
            (env.pyzbarDecode VariantTag.enhanced)).1.1 = []
          ∧ noAcc (zbarFold (st.1, st.2 ++ [Event.call (EngineCall.pyzbar VariantTag.enhanced)])
              (env.pyzbarDecode VariantTag.enhanced)).1.2 = true
          ∧ Δ1 = [])
        ∨ ((zbarFold (st.1, st.2 ++ [Event.call (EngineCall.pyzbar VariantTag.enhanced)])
            (env.pyzbarDecode VariantTag.enhanced)).1.1 ≠ []
          ∧ tailAcceptShape (zbarFold (st.1, st.2 ++ [Event.call (EngineCall.pyzbar VariantTag.enhanced)])
              (env.pyzbarDecode VariantTag.enhanced)).1.2) := by
      cases hΔ : Δ1 with
      | nil =>
        left
        rw [hΔ] at hA1 hE1
        refine ⟨by rw [hA1, hnil]; rfl, ?_, rfl⟩
        rw [hE1]
        simpa using hnE
      | cons d Δ2 =>
        right
        rw [hΔ] at hA1 hE1
        constructor
        · rw [hA1]; simp
        · rw [hE1]
          exact tail_of_delta _ _ hnE (by simp)
    simp only [pyzbarPass, hav, if_true]
    split
    · rcases hcases1 with ⟨h1, h2, -⟩ | ⟨h1, h2⟩
      · exact Or.inl ⟨h1, h2⟩
      · exact Or.inr ⟨h1, h2⟩
    · split
      next hne1 =>
        rcases hcases1 with ⟨h1, -, -⟩ | ⟨h1, h2⟩
        · exact absurd h1 hne1
        · exact Or.inr ⟨h1, h2⟩
      next hne1 =>
        rcases hcases1 with ⟨h1, h2, hΔnil⟩ | ⟨h1, -⟩
        · have hnT : noAcc ((zbarFold (st.1, st.2
              ++ [Event.call (EngineCall.pyzbar VariantTag.enhanced)])
              (env.pyzbarDecode VariantTag.enhanced)).1.2
              ++ [Event.call (EngineCall.pyzbar VariantTag.thresh)]) = true :=
            noAcc_append_call _ _ h2
          obtain ⟨Δ2, hA2, hE2⟩ := zbarFold_shape (env.pyzbarDecode VariantTag.thresh)
            ((zbarFold (st.1, st.2 ++ [Event.call (EngineCall.pyzbar VariantTag.enhanced)])
                (env.pyzbarDecode VariantTag.enhanced)).1.1,
             (zbarFold (st.1, st.2 ++ [Event.call (EngineCall.pyzbar VariantTag.enhanced)])
                (env.pyzbarDecode VariantTag.enhanced)).1.2
              ++ [Event.call (EngineCall.pyzbar VariantTag.thresh)])
          cases hΔ2 : Δ2 with
          | nil =>
            left
            rw [hΔ2] at hA2 hE2
            refine ⟨by rw [hA2, h1]; rfl, ?_⟩
            rw [hE2]
            simpa using hnT
          | cons d2 Δ3 =>
            right
            rw [hΔ2] at hA2 hE2
            constructor
            · rw [hA2]; simp
            · rw [hE2]
              exact tail_of_delta _ _ hnT (by simp)
        · exact absurd h1 hne1

/-- The QReader decode fold appends exactly its accepted payloads, as
payload/event pairs, to the state. -/
theorem qrFold_shape (l : List (Option String)) : ∀ (st : DetState),
    ∃ Δ, (l.foldl (fun st t =>
        match t with
        | some s => if s ≠ "" then (st.1 ++ [pyStrip s], st.2 ++ [Event.accept (pyStrip s)]) else st
        | none => st) st).1 = st.1 ++ Δ
      ∧ (l.foldl (fun st t =>
        match t with
        | some s => if s ≠ "" then (st.1 ++ [pyStrip s], st.2 ++ [Event.accept (pyStrip s)]) else st
        | none => st) st).2 = st.2 ++ Δ.map Event.accept := by
  induction l with
  | nil => intro st; exact ⟨[], by simp, by simp⟩
  | cons t l ih =>
    intro st
    cases t with
    | none => simpa using ih st
    | some s =>
      by_cases hs : s = ""
      · simpa [hs] using ih st
      · obtain ⟨Δ, h1, h2⟩ := ih (st.1 ++ [pyStrip s], st.2 ++ [Event.accept (pyStrip s)])
        refine ⟨pyStrip s :: Δ, ?_, ?_⟩
        · rw [List.foldl_cons]
          simp only [hs, ne_eq, not_false_eq_true, if_pos]
          rw [h1]
          simp
        · rw [List.foldl_cons]
          simp only [hs, ne_eq, not_false_eq_true, if_pos]
          rw [h2]
          simp

/-- The QReader fallback on an empty accumulator: either it accepts
nothing, or its trace has the fallback tail shape. -/
theorem qreaderPass_shape (env : DecodeEnv) (st : DetState)
    (hnil : st.1 = []) (hn : noAcc st.2 = true) :
    ((qreaderPass env st).1 = [] ∧ noAcc (qreaderPass env st).2 = true)
    ∨ ((qreaderPass env st).1 ≠ [] ∧ tailAcceptShape (qreaderPass env st).2) := by
  cases hav : env.qreaderAvailable with
  | false =>
    left
    constructor
    · simpa [qreaderPass, hav] using hnil
    · simpa [qreaderPass, hav] using hn
  | true =>
    have hnc : noAcc (st.2 ++ [Event.call EngineCall.qreader]) = true :=
      noAcc_append_call st.2 _ hn
    obtain ⟨Δ, h1, h2⟩ := qrFold_shape env.qreaderDecode
      (st.1, st.2 ++ [Event.call EngineCall.qreader])
    simp only [qreaderPass, hav, if_true]
    cases hΔ : Δ with
    | nil =>
      left
      rw [hΔ] at h1 h2
      refine ⟨by rw [h1, hnil]; rfl, ?_⟩
      rw [h2]
      simpa using hnc
    | cons d Δ2 =>
      right
      rw [hΔ] at h1 h2
      constructor
      · rw [h1]; simp
      · rw [h2]
        exact tail_of_delta _ _ hnc (by simp)

/-- C7 counterexample: when the primary engine decodes "hello" from the
enhanced variant at angle 0, the remaining rotation angles (90, 180,
270) of that variant are still attempted after the acceptance — the
angle loop of `_run_detection` has no early exit — so further detection
attempts do occur after the first acceptance. -/
theorem C7_counterexample :
    noCallAfterAccept (analyzeTraced envHello imgSmall).2 = false := by decide

/-- C7 amended: after the first accepted payload, no further variant and
no further engine is invoked — every later event is either another
acceptance or a primary-engine invocation at a remaining rotation angle
of the variant whose sweep was already in progress at the first
acceptance.  (In particular the single-detect, pyzbar and QReader
engines are never invoked after an acceptance.) -/
theorem C7_amended (env : DecodeEnv) (img : Image) :
    c7ok (analyzeTraced env img).2 = true := by
  cases hpe : env.processingError with
  | some m => simp only [analyzeTraced, hpe]; rfl
  | none =>
    simp only [analyzeTraced, hpe]
    have h1 : sweepInv VariantTag.enhanced (pass1 env) :=
      run_detection_sweepInv env _ _ (Or.inl ⟨rfl, rfl⟩)
    cases he1 : (pass1 env).1.isEmpty with
    | false =>
      have hne : (pass1 env).1 ≠ [] := by
        intro h0; rw [h0] at he1; simp at he1
      have hsh : sweepAcceptShape VariantTag.enhanced (pass1 env).2 := by
        rcases h1 with ⟨h0, -⟩ | ⟨-, hs⟩
        · exact absurd h0 hne
        · exact hs
      have hp2 : pass2 env img = pass1 env := by simp [pass2, he1]
      have hp3 : pass3 env img = pass1 env := by simp [pass3, hp2, he1]
      have hpre : prePipeline env img = pass1 env := by simp [prePipeline, hp3, he1]
      have hrun : runPipeline env img = pass1 env := by simp [runPipeline, hpre, he1]
      rw [hrun]
      exact c7ok_of_sweep _ _ hsh
    | true =>
      have hem1 : (pass1 env).1 = [] := by simpa using he1
      have hn1 : noAcc (pass1 env).2 = true := by
        rcases h1 with ⟨-, hn⟩ | ⟨hne, -⟩
        · exact hn
        · exact absurd hem1 hne
      have hU : sweepInv (upVariant img) (run_detection env (upVariant img) (pass1 env)) :=
        run_detection_sweepInv env _ _ (Or.inl ⟨hem1, hn1⟩)
      cases heU : (run_detection env (upVariant img) (pass1 env)).1.isEmpty with
      | false =>
        have hneU : (run_detection env (upVariant img) (pass1 env)).1 ≠ [] := by
          intro h0; rw [h0] at heU; simp at heU
        have hshU : sweepAcceptShape (upVariant img)
            (run_detection env (upVariant img) (pass1 env)).2 := by
          rcases hU with ⟨h0, -⟩ | ⟨-, hs⟩
          · exact absurd h0 hneU
          · exact hs
        have hp2 : pass2 env img = run_detection env (upVariant img) (pass1 env) := by
          simp [pass2, he1, heU]
        have hp3 : pass3 env img = pass2 env img := by simp [pass3, hp2, heU]
        have hpre : prePipeline env img = pass3 env img := by simp [prePipeline, hp3, hp2, heU]
        have hrun : runPipeline env img = pass3 env img := by
          simp [runPipeline, hpre, hp3, hp2, heU]
        rw [hrun, hp3, hp2]
        exact c7ok_of_sweep _ _ hshU
      | true =>
        have hemU : (run_detection env (upVariant img) (pass1 env)).1 = [] := by
          simpa using heU
        have hnU : noAcc (run_detection env (upVariant img) (pass1 env)).2 = true := by
          rcases hU with ⟨-, hn⟩ | ⟨hne, -⟩
          · exact hn
          · exact absurd hemU hne
        have hT : sweepInv VariantTag.thresh
            (run_detection env VariantTag.thresh
              (run_detection env (upVariant img) (pass1 env))) :=
          run_detection_sweepInv env _ _ (Or.inl ⟨hemU, hnU⟩)
        have hp2 : pass2 env img
            = run_detection env VariantTag.thresh
                (run_detection env (upVariant img) (pass1 env)) := by
          simp [pass2, he1, heU]
        cases heT : (run_detection env VariantTag.thresh
            (run_detection env (upVariant img) (pass1 env))).1.isEmpty with
        | false =>
          have hneT : (run_detection env VariantTag.thresh
              (run_detection env (upVariant img) (pass1 env))).1 ≠ [] := by
            intro h0; rw [h0] at heT; simp at heT
          have hshT : sweepAcceptShape VariantTag.thresh
              (run_detection env VariantTag.thresh
                (run_detection env (upVariant img) (pass1 env))).2 := by
            rcases hT with ⟨h0, -⟩ | ⟨-, hs⟩
            · exact absurd h0 hneT
            · exact hs
          have hp3 : pass3 env img = pass2 env img := by simp [pass3, hp2, heT]
          have hpre : prePipeline env img = pass3 env img := by
            simp [prePipeline, hp3, hp2, heT]
          have hrun : runPipeline env img = pass3 env img := by
            simp [runPipeline, hpre, hp3, hp2, heT]
          rw [hrun, hp3, hp2]
          exact c7ok_of_sweep _ _ hshT
        | true =>
          have hemT : (pass2 env img).1 = [] := by rw [hp2]; simpa using heT
          have hnT : noAcc (pass2 env img).2 = true := by
            rw [hp2]
            rcases hT with ⟨-, hn⟩ | ⟨hne, -⟩
            · exact hn
            · exact absurd (by simpa using heT) hne
          have hp3 : pass3 env img = singlePass env (pass2 env img) := by
            have : (pass2 env img).1.isEmpty = true := by rw [hemT]; rfl
            simp [pass3, this]
          have hsingle := singlePass_shape env (pass2 env img) hemT hnT
          rcases hsingle with ⟨hem3, hn3⟩ | ⟨hne3, htail3⟩
          · have hem3' : (pass3 env img).1 = [] := by rw [hp3]; exact hem3
            have hn3' : noAcc (pass3 env img).2 = true := by rw [hp3]; exact hn3
            have hpre : prePipeline env img = pyzbarPass env (pass3 env img) := by
              have : (pass3 env img).1.isEmpty = true := by rw [hem3']; rfl
              simp [prePipeline, this]
            have hzb := pyzbarPass_shape env (pass3 env img) hem3' hn3'
            rcases hzb with ⟨hem4, hn4⟩ | ⟨hne4, htail4⟩
            · have hem5 : (prePipeline env img).1 = [] := by rw [hpre]; exact hem4
              have hn5 : noAcc (prePipeline env img).2 = true := by rw [hpre]; exact hn4
              have hrun : runPipeline env img = qreaderPass env (prePipeline env img) := by
                have : (prePipeline env img).1.isEmpty = true := by rw [hem5]; rfl
                simp [runPipeline, this]
              have hq := qreaderPass_shape env (prePipeline env img) hem5 hn5
              rcases hq with ⟨-, hn6⟩ | ⟨-, htail6⟩
              · rw [hrun]; exact c7ok_of_noAcc _ hn6
              · rw [hrun]; exact c7ok_of_tail _ htail6
            · have hne5 : (prePipeline env img).1 ≠ [] := by rw [hpre]; exact hne4
              have hcond : (prePipeline env img).1.isEmpty = false := by
                cases hc : (prePipeline env img).1 with
                | nil => exact absurd hc hne5
                | cons x xs => rfl
              have hrun : runPipeline env img = prePipeline env img := by
                simp [runPipeline, hcond]
              rw [hrun, hpre]
              exact c7ok_of_tail _ htail4
          · have hne3' : (pass3 env img).1 ≠ [] := by rw [hp3]; exact hne3
            have hcond : (pass3 env img).1.isEmpty = false := by
              cases hc : (pass3 env img).1 with
              | nil => exact absurd hc hne3'
              | cons x xs => rfl
            have hpre : prePipeline env img = pass3 env img := by
              simp [prePipeline, hcond]
            have hrun : runPipeline env img = pass3 env img := by
              simp [runPipeline, hpre, hcond]
            rw [hrun, hp3]
            exact c7ok_of_tail _ htail3

end QrScan
